import Mathlib

/-!
Verification of the document ingestion / retrieval-augmented messaging core
of the server-demo repository, as a shallow embedding in Lean 4.

Conventions of the embedding:
- machine text is modelled as `List Char` where character-level work matters
  (the chunker), and as `String` elsewhere;
- database rows are records, tables are lists in insertion order, timestamps
  and generated primary keys are drawn from a monotone `tick` counter;
- a SQLAlchemy session is a pair of stores: `committed` (what the database
  holds) and `session` (the view including pending, uncommitted changes);
  `commit` publishes the session view, `rollback` discards it;
- fallible code returns `Except`, carrying the database state at the raise
  point so that post-error states can be inspected;
- external collaborators (vector index, LLM, storage, extraction) are
  oracles passed in as parameters, each call site receiving the outcome
  the real collaborator would have produced.
-/

/-! ## Configuration (config.py, Settings defaults) -/

def settings.CHUNK_SIZE : Nat := 1000

def settings.CHUNK_OVERLAP : Nat := 200

def settings.TOP_K_RESULTS : Nat := 4

def settings.MAX_CONVERSATION_HISTORY : Nat := 10

/-! ## The Chunker

Modelled from the spec: the repository delegates chunking to an external
text-splitting library (rag_service.py builds a `RecursiveCharacterTextSplitter`
with `settings.CHUNK_SIZE`/`settings.CHUNK_OVERLAP` and the separator list
`["\n\n", "\n", " ", ""]`); the splitter's own code is not part of src/. The
definitions below follow spec section 4.1 step 3: split at paragraph
boundaries first, then line boundaries, then spaces, only falling back to
mid-token splits when no boundary exists, then merge the pieces into ordered
chunks of at most the target length with the configured overlap carried
between consecutive chunks. -/

/-- Does `sep` occur as a contiguous sublist of the text? -/
def containsSublist (sep : List Char) : List Char → Bool
  | [] => sep.isEmpty
  | c :: rest => sep.isPrefixOf (c :: rest) || containsSublist sep rest

/-- Modelled from the spec: split the text at each occurrence of `sep`,
keeping the separator characters attached to the piece that follows, so no
character of the document is lost. Fuel is the text length. -/
def splitKeepSepGo (sep : List Char) : Nat → List Char → List Char → List (List Char)
  | 0, acc, text => [acc.reverse ++ text]
  | fuel + 1, acc, text =>
    match text with
    | [] => [acc.reverse]
    | c :: rest =>
      if sep.isPrefixOf (c :: rest) then
        acc.reverse :: splitKeepSepGo sep fuel sep.reverse (List.drop sep.length (c :: rest))
      else
        splitKeepSepGo sep fuel (c :: acc) rest

/-- Modelled from the spec: pieces of the text delimited by `sep`, empty
pieces dropped. -/
def splitKeepSep (sep : List Char) (text : List Char) : List (List Char) :=
  (splitKeepSepGo sep text.length [] text).filter (fun p => !p.isEmpty)

/-- Modelled from the spec: the overlap window maintenance of the merge step.
After a chunk is emitted, pieces are dropped from the front of the running
window until at most `ov` characters remain (and the next piece fits). -/
def popOverlap (cs ov dLen : Nat) : Nat → List (List Char) → Nat × List (List Char)
  | total, [] => (total, [])
  | total, c :: rest =>
    if total > ov || (total + dLen > cs && total > 0) then
      popOverlap cs ov dLen (total - c.length) rest
    else
      (total, c :: rest)

/-- Modelled from the spec: greedily merge ordered pieces into chunks of at
most `cs` characters; when a piece would overflow the running window, emit
the window as a chunk and keep its last `ov` characters as overlap. -/
def mergeLoop (cs ov : Nat) : List (List Char) → Nat → List (List Char) → List (List Char)
  | [], _, current =>
    let doc := current.flatten
    if doc.isEmpty then [] else [doc]
  | d :: ds, total, current =>
    if total + d.length > cs && !current.isEmpty then
      let doc := current.flatten
      let popped := popOverlap cs ov d.length total current
      (if doc.isEmpty then [] else [doc]) ++
        mergeLoop cs ov ds (popped.1 + d.length) (popped.2 ++ [d])
    else
      mergeLoop cs ov ds (total + d.length) (current ++ [d])

/-- Modelled from the spec: merge a list of pieces into overlapping chunks. -/
def mergeSplits (cs ov : Nat) (splits : List (List Char)) : List (List Char) :=
  mergeLoop cs ov splits 0 []

/-- Modelled from the spec: walk a list of pieces produced by one separator;
short pieces accumulate and are merged, over-long pieces are re-split with
the remaining (finer) separators via `recur`. -/
def processPieces (cs ov : Nat) (hasRest : Bool) (recur : List Char → List (List Char)) :
    List (List Char) → List (List Char) → List (List Char)
  | good, [] => if good.isEmpty then [] else mergeSplits cs ov good.reverse
  | good, p :: ps =>
    if p.length < cs then
      processPieces cs ov hasRest recur (p :: good) ps
    else
      (if good.isEmpty then [] else mergeSplits cs ov good.reverse) ++
        (if hasRest then recur p else [p]) ++
        processPieces cs ov hasRest recur [] ps

/-- Modelled from the spec: separator-priority recursive splitting. The first
separator of the priority list that occurs in the text is used; over-long
pieces fall through to the finer separators; the empty separator splits into
single characters (mid-token fallback). Fuel bounds the recursion depth by
the separator-list length. -/
def splitTextAux (cs ov : Nat) : Nat → List (List Char) → List Char → List (List Char)
  | 0, _, text => [text]
  | fuel + 1, seps, text =>
    match seps with
    | [] => [text]
    | sep :: rest =>
      if sep.isEmpty then
        mergeSplits cs ov (text.map (fun c => [c]))
      else if containsSublist sep text then
        processPieces cs ov (!rest.isEmpty) (splitTextAux cs ov fuel rest) [] (splitKeepSep sep text)
      else
        splitTextAux cs ov fuel rest text

/-- The separator priority list passed to the splitter in rag_service.py:
paragraph boundary, line boundary, space, then character-level fallback. -/
def SEPARATOR_PRIORITY : List (List Char) := [['\n', '\n'], ['\n'], [' '], []]

namespace RAGService

/-- rag_service.py `split_text`: split a text into chunks with the configured
chunk size and overlap (chunker itself modelled from the spec, see above). -/
def split_text (text : List Char) : List (List Char) :=
  splitTextAux settings.CHUNK_SIZE settings.CHUNK_OVERLAP
    (SEPARATOR_PRIORITY.length + 1) SEPARATOR_PRIORITY text

end RAGService

/-- The 3000-character extractable text of the end-to-end ingestion scenario:
continuous text with no paragraph, line or space boundary. -/
def scenarioText : List Char := List.replicate 3000 'a'

/-! ### Closed-form characterization of the chunker on boundary-free text

When every piece is a single character, the merge loop's state is fully
described by the remaining piece count and the current window size; the
recursion below mirrors that evolution (specialised to the configured
chunk size 1000 and overlap 200: after each emitted chunk the window
restarts at 201 = overlap + the piece just added). -/

def singletonChunkSizes : Nat → Nat → List Nat
  | 0, k => if k = 0 then [] else [k]
  | n + 1, k =>
    if k + 1 > 1000 && k != 0 then
      k :: singletonChunkSizes n 201
    else
      singletonChunkSizes n (k + 1)

theorem containsSublist_replicate_ne (b : Char) (bs : List Char) (c : Char) (hbc : b ≠ c) :
    ∀ n, containsSublist (b :: bs) (List.replicate n c) = false := by
  intro n
  induction n with
  | zero => simp [containsSublist]
  | succ m ih =>
    simp only [List.replicate_succ, containsSublist, ih, Bool.or_false]
    simp [List.isPrefixOf, hbc]

theorem flatten_replicate_singleton (c : Char) :
    ∀ k, (List.replicate k [c]).flatten = List.replicate k c := by
  intro k
  induction k with
  | zero => rfl
  | succ m ih => simp [List.replicate_succ, ih]

theorem popOverlap_replicate (c : Char) :
    ∀ k, popOverlap 1000 200 1 k (List.replicate k [c]) =
      if k ≤ 200 then (k, List.replicate k [c]) else (200, List.replicate 200 [c]) := by
  intro k
  induction k with
  | zero => simp [popOverlap]
  | succ m ih =>
    rw [List.replicate_succ]
    rw [popOverlap]
    by_cases h : m + 1 ≤ 200
    · have h1 : (m + 1 > 200 || (m + 1 + 1 > 1000 && m + 1 > 0)) = false := by
        simp only [Bool.or_eq_false_iff, Bool.and_eq_false_iff]
        constructor
        · simp; omega
        · left; simp; omega
      rw [h1]
      simp [h]
    · have h1 : (m + 1 > 200 || (m + 1 + 1 > 1000 && m + 1 > 0)) = true := by
        simp; omega
      rw [h1]
      simp only [List.length_cons, List.length_nil]
      have h2 : m + 1 - 1 = m := by omega
      rw [if_neg h, h2, ih]
      by_cases h3 : m ≤ 200
      · have h4 : m = 200 := by omega
        simp [h4]
      · simp [h3]

theorem mergeLoop_replicate (c : Char) :
    ∀ n k, mergeLoop 1000 200 (List.replicate n [c]) k (List.replicate k [c]) =
      (singletonChunkSizes n k).map (fun m => List.replicate m c) := by
  intro n
  induction n with
  | zero =>
    intro k
    rw [List.replicate_zero, mergeLoop, singletonChunkSizes]
    rw [flatten_replicate_singleton]
    cases k with
    | zero => simp
    | succ m => simp [List.replicate_succ]
  | succ n ih =>
    intro k
    rw [List.replicate_succ, mergeLoop, singletonChunkSizes]
    simp only [List.length_cons, List.length_nil, Nat.zero_add]
    by_cases h : k + 1 > 1000 ∧ k ≠ 0
    · obtain ⟨m, rfl⟩ : ∃ m, k = m + 1 := ⟨k - 1, by omega⟩
      have hcond : (decide (m + 1 + 1 > 1000) && !(List.replicate (m + 1) [c]).isEmpty) = true := by
        simp only [List.replicate_succ, List.isEmpty_cons, Bool.not_false, Bool.and_true,
          decide_eq_true_eq]
        omega
      have hcond2 : (decide (m + 1 + 1 > 1000) && (m + 1 != 0)) = true := by
        simp only [Bool.and_eq_true, decide_eq_true_eq, bne_iff_ne, ne_eq]
        exact ⟨h.1, h.2⟩
      rw [if_pos hcond2, if_pos hcond]
      have hk200 : ¬ (m + 1 ≤ 200) := by omega
      have hflat : ¬ ((List.replicate (m + 1) c).isEmpty = true) := by
        simp [List.replicate_succ]
      simp only [flatten_replicate_singleton, popOverlap_replicate, if_neg hk200,
        if_neg hflat]
      have hrep : List.replicate 200 [c] ++ [[c]] = List.replicate 201 [c] := by
        rw [← List.replicate_succ']
      rw [hrep, show (200 : Nat) + 1 = 201 from rfl, ih 201]
      simp [List.map_cons]
    · have hcond : ¬ ((decide (k + 1 > 1000) && !(List.replicate k [c]).isEmpty) = true) := by
        rcases Nat.eq_zero_or_pos k with h0 | hpos
        · subst h0; simp
        · have hle : ¬ (1000 < k + 1) := by
            intro hgt
            exact h ⟨hgt, by omega⟩
          simp [hle]
      have hcond2 : ¬ ((decide (k + 1 > 1000) && (k != 0)) = true) := by
        rcases Nat.eq_zero_or_pos k with h0 | hpos
        · subst h0; simp
        · have hle : ¬ (1000 < k + 1) := by
            intro hgt
            exact h ⟨hgt, by omega⟩
          simp [hle]
      rw [if_neg hcond2, if_neg hcond]
      have hrep : List.replicate k [c] ++ [[c]] = List.replicate (k + 1) [c] := by
        rw [← List.replicate_succ']
      rw [hrep]
      exact ih (k + 1)

theorem singletonChunkSizes_emit :
    ∀ j n k, k + j = 1000 → j + 1 ≤ n →
      singletonChunkSizes n k = 1000 :: singletonChunkSizes (n - (j + 1)) 201 := by
  intro j
  induction j with
  | zero =>
    intro n k hk hn
    obtain ⟨m, rfl⟩ : ∃ m, n = m + 1 := ⟨n - 1, by omega⟩
    rw [singletonChunkSizes]
    have : (k + 1 > 1000 && k != 0) = true := by simp; omega
    rw [this]
    simp only [if_true]
    have hk1000 : k = 1000 := by omega
    subst hk1000
    norm_num
  | succ j ih =>
    intro n k hk hn
    obtain ⟨m, rfl⟩ : ∃ m, n = m + 1 := ⟨n - 1, by omega⟩
    rw [singletonChunkSizes]
    have : (k + 1 > 1000 && k != 0) = false := by
      simp only [Bool.and_eq_false_iff]
      left; simp; omega
    rw [this]
    simp only [Bool.false_eq_true, if_false]
    rw [ih m (k + 1) (by omega) (by omega)]
    congr 1
    congr 1
    omega

theorem singletonChunkSizes_small :
    ∀ n k, n + k ≤ 1000 → singletonChunkSizes n k =
      if n + k = 0 then [] else [n + k] := by
  intro n
  induction n with
  | zero => intro k hk; rw [singletonChunkSizes]; simp
  | succ n ih =>
    intro k hk
    rw [singletonChunkSizes]
    have : (k + 1 > 1000 && k != 0) = false := by
      simp only [Bool.and_eq_false_iff]
      left; simp; omega
    rw [this]
    simp only [Bool.false_eq_true, if_false]
    rw [ih (k + 1) (by omega)]
    have h2 : n + (k + 1) = n + 1 + k := by omega
    rw [h2]

theorem singletonChunkSizes_scenario :
    singletonChunkSizes 3000 0 = [1000, 1000, 1000, 600] := by
  rw [singletonChunkSizes_emit 1000 3000 0 (by norm_num) (by norm_num)]
  norm_num
  rw [singletonChunkSizes_emit 799 1999 201 (by norm_num) (by norm_num)]
  norm_num
  rw [singletonChunkSizes_emit 799 1199 201 (by norm_num) (by norm_num)]
  norm_num
  rw [singletonChunkSizes_small 399 201 (by norm_num)]
  norm_num

theorem split_text_scenario :
    RAGService.split_text scenarioText =
      [List.replicate 1000 'a', List.replicate 1000 'a',
       List.replicate 1000 'a', List.replicate 600 'a'] := by
  have hdd := containsSublist_replicate_ne '\n' ['\n'] 'a' (by decide) 3000
  have hd := containsSublist_replicate_ne '\n' [] 'a' (by decide) 3000
  have hsp := containsSublist_replicate_ne ' ' [] 'a' (by decide) 3000
  have hml := mergeLoop_replicate 'a' 3000 0
  simp only [List.replicate_zero] at hml
  rw [RAGService.split_text, scenarioText, SEPARATOR_PRIORITY]
  simp only [splitTextAux, List.isEmpty_cons, List.isEmpty_nil, hdd, hd, hsp,
    Bool.false_eq_true, if_false, if_true, List.map_replicate, mergeSplits,
    settings.CHUNK_SIZE, settings.CHUNK_OVERLAP, List.length_cons, List.length_nil]
  rw [hml, singletonChunkSizes_scenario]
  rfl

/-! ## Data model (app/models)

Tables are lists of rows in insertion order. Generated primary keys and
timestamps are drawn from a monotone `tick` counter; `deletedAt` is the
soft-delete tombstone. Entity ids are modelled as naturals. -/

inductive DocumentStatus where
  | processing
  | completed
  | failed
deriving DecidableEq, Repr

inductive FileType where
  | pdf
  | markdown
  | text
deriving DecidableEq, Repr

inductive MessageRole where
  | user
  | assistant
deriving DecidableEq, Repr

/-- The string value of a message role (MessageRole enum values). -/
def MessageRole.value : MessageRole → String
  | .user => "user"
  | .assistant => "assistant"

structure Document where
  id : Nat
  userId : Option String
  filename : String
  filePath : String
  fileType : FileType
  fileSize : Nat
  status : DocumentStatus
  chunkCount : Option Nat
  deletedAt : Option Nat
deriving DecidableEq, Repr

structure Category where
  id : Nat
  userId : Option String
  name : String
  deletedAt : Option Nat
deriving DecidableEq, Repr

structure Chat where
  id : Nat
  userId : Option String
  categoryId : Option Nat
  title : String
  createdAt : Nat
  updatedAt : Nat
  deletedAt : Option Nat
deriving DecidableEq, Repr

/-- One source citation of an assistant message (schemas/message.py SourceInfo).
The similarity field is the constant placeholder 0.0 in the source; it is
modelled by the constant 0. -/
structure SourceInfo where
  document_id : Option Nat
  document_name : String
  chunk_id : String
  page : Option Nat
  similarity : Nat
  content_preview : String
deriving DecidableEq, Repr

structure Message where
  id : Nat
  chatId : Nat
  role : MessageRole
  content : String
  sources : Option (List SourceInfo)
  createdAt : Nat
  deletedAt : Option Nat
deriving DecidableEq, Repr

structure ChatDocument where
  chatId : Nat
  documentId : Nat
  deletedAt : Option Nat
deriving DecidableEq, Repr

structure MessageDocument where
  messageId : Nat
  documentId : Nat
  deletedAt : Option Nat
deriving DecidableEq, Repr

structure Store where
  categories : List Category
  chats : List Chat
  documents : List Document
  messages : List Message
  chatDocuments : List ChatDocument
  messageDocuments : List MessageDocument
deriving DecidableEq, Repr

def emptyStore : Store := ⟨[], [], [], [], [], []⟩

/-- The processing status of the document row with the given id, if any. -/
def Store.statusOfDocument (st : Store) (docId : Nat) : Option DocumentStatus :=
  (st.documents.find? (fun d => d.id == docId)).map (fun d => d.status)

/-! ## Ingestion pipeline (document_service.py, rag_service.py) -/

/-- Python str.strip() removes these whitespace characters; extraction output
consisting only of them is treated as empty. -/
def isPyWhitespace (c : Char) : Bool :=
  c == ' ' || c == '\t' || c == '\n' || c == '\r' || c == Char.ofNat 11 || c == Char.ofNat 12

/-- Whether `text.strip()` is empty, i.e. the text is all whitespace. -/
def pyStripIsEmpty (text : List Char) : Bool := text.all isPyWhitespace

/-- The externally observable outcomes of one processing run's collaborator
calls: the text produced by storage download + extraction (or the error the
extractor raised), and the outcome of the vector-index insertion. -/
structure ProcOutcome where
  extract : Except String (List Char)
  index : Except String Unit

namespace RAGService

/-- rag_service.py add_document_to_vectorstore: split the text into chunks,
hand them to the vector index (outcome supplied by the oracle), and return
the number of chunks produced. -/
def add_document_to_vectorstore (text : List Char) (index : Except String Unit) :
    Except String Nat :=
  let chunks := RAGService.split_text text
  match index with
  | .error e => .error e
  | .ok _ => .ok chunks.length

end RAGService

namespace DocumentService

/-- The body of the try block of _process_document_background: extract the
text (empty/whitespace-only extraction raises ValueError), then chunk and
index it, returning the chunk count. -/
def process_try (eff : ProcOutcome) : Except String Nat :=
  match eff.extract with
  | .error e => .error e
  | .ok text =>
    if pyStripIsEmpty text then .error ("Extracted text is empty")
    else RAGService.add_document_to_vectorstore text eff.index

/-- document_service.py _process_document_background: load the document (no
soft-delete filter in the query), abort silently when absent; otherwise run
the try block and set status completed with the chunk count, or status
failed when the try block raised. The function itself never raises to its
caller. -/
def process_document_background (st : Store) (docId : Nat) (eff : ProcOutcome) : Store :=
  match st.documents.find? (fun d => d.id == docId) with
  | none => st
  | some _ =>
    match process_try eff with
    | .ok n =>
      { st with documents := st.documents.map (fun d =>
          if d.id == docId then { d with status := .completed, chunkCount := some n } else d) }
    | .error _ =>
      { st with documents := st.documents.map (fun d =>
          if d.id == docId then { d with status := .failed } else d) }

/-- document_service.py upload_document, restricted to its database effect
(the pre-creation extension/size validation rejects the request before any
row exists and is omitted). A document row is created with status processing
and committed; on storage upload success its path is set and a background
processing task is scheduled (returned id); on storage failure the row is
deleted again and an HTTP 500 raised (no task scheduled). -/
def upload_document (st : Store) (tick : Nat) (userId filename : String) (ft : FileType)
    (size : Nat) (gcs : Except String String) : Store × Option Nat × Nat :=
  let d : Document :=
    { id := tick, userId := some userId, filename := filename, filePath := "",
      fileType := ft, fileSize := size, status := .processing,
      chunkCount := some 0, deletedAt := none }
  let st1 : Store := { st with documents := st.documents ++ [d] }
  match gcs with
  | .ok url =>
    (⟨{ st1 with documents := st1.documents.map (fun x =>
         if x.id == d.id then { x with filePath := url } else x) }, some d.id, tick + 1⟩)
  | .error _ =>
    (⟨{ st1 with documents := st1.documents.filter (fun x => x.id != d.id) }, none, tick + 1⟩)

end DocumentService

/-! ## The two document-side entry points as a transition system

`sysStep` is the document lifecycle as driven by the code's only call sites:
an upload request (which schedules at most one background processing task
for the freshly created document), and the later execution of one scheduled
task. A `runProcess` event for an id that has no pending scheduled task does
nothing, mirroring that nothing in the code invokes the background processor
except the task scheduled by upload. -/

structure SysState where
  store : Store
  scheduled : List Nat
  tick : Nat
deriving DecidableEq, Repr

inductive SysEvent where
  | upload (userId filename : String) (ft : FileType) (size : Nat) (gcs : Except String String)
  | runProcess (docId : Nat) (eff : ProcOutcome)

def sysStep (s : SysState) (ev : SysEvent) : SysState :=
  match ev with
  | .upload u f ft size gcs =>
    match DocumentService.upload_document s.store s.tick u f ft size gcs with
    | (st, some d, t) => ⟨st, s.scheduled ++ [d], t⟩
    | (st, none, t) => ⟨st, s.scheduled, t⟩
  | .runProcess d eff =>
    if s.scheduled.contains d then
      { s with store := DocumentService.process_document_background s.store d eff,
               scheduled := s.scheduled.erase d }
    else s

def sysRun (s : SysState) : List SysEvent → SysState
  | [] => s
  | ev :: evs => sysRun (sysStep s ev) evs

/-- System invariant: every scheduled task refers to a document currently in
status processing, all document ids and scheduled ids are below the tick
counter, and no task is scheduled twice. -/
def SysInv (s : SysState) : Prop :=
  (∀ d ∈ s.scheduled, s.store.statusOfDocument d = some .processing) ∧
  (∀ doc ∈ s.store.documents, doc.id < s.tick) ∧
  (∀ d ∈ s.scheduled, d < s.tick) ∧
  s.scheduled.Nodup

def sysInit : SysState := ⟨emptyStore, [], 0⟩

/-! ### Helper lemmas about document lookups -/

/-- Updating the row with id `i` through an id-preserving function commutes
with `find?` by id. -/
theorem find?_map_update (l : List Document) (i j : Nat) (h : Document → Document)
    (hid : ∀ d, (h d).id = d.id) :
    (l.map (fun d => if d.id == i then h d else d)).find? (fun d => d.id == j) =
      (l.find? (fun d => d.id == j)).map (fun d => if d.id == i then h d else d) := by
  rw [List.find?_map]
  have hp : ((fun d => d.id == j) ∘ fun d => if (d.id == i) = true then h d else d) =
      (fun d : Document => d.id == j) := by
    funext d
    by_cases hdi : (d.id == i) = true
    · simp [Function.comp, hdi, hid]
    · simp [Function.comp, hdi]
  rw [hp]

/-- `statusOfDocument` after the processing run: the looked-up row is updated. -/
theorem statusOf_after_update (st : Store) (i : Nat) (h : Document → Document)
    (hid : ∀ d, (h d).id = d.id) (doc : Document)
    (hfind : st.documents.find? (fun d => d.id == i) = some doc) :
    Store.statusOfDocument
      { st with documents := st.documents.map (fun d => if d.id == i then h d else d) } i =
      some (h doc).status := by
  rw [Store.statusOfDocument]
  simp only [find?_map_update st.documents i i h hid, hfind]
  have hdi : (doc.id == i) = true :=
    @List.find?_some Document (fun d => d.id == i) doc st.documents hfind
  have hdieq : doc.id = i := by simpa using hdi
  simp [hdieq]

/-! ### C4: the end-to-end ingestion scenario -/

def scenarioDoc : Document :=
  { id := 1, userId := some "default-user", filename := "report.pdf",
    filePath := "user-documents-report", fileType := .pdf, fileSize := 3000,
    status := .processing, chunkCount := some 0, deletedAt := none }

def scenarioStore : Store := { emptyStore with documents := [scenarioDoc] }

def scenarioEffect : ProcOutcome := { extract := .ok scenarioText, index := .ok () }

theorem pyStripIsEmpty_scenario : pyStripIsEmpty scenarioText = false := by
  rw [pyStripIsEmpty, scenarioText, show (3000 : Nat) = 2999 + 1 from rfl, List.replicate_succ]
  have ha : isPyWhitespace 'a' = false := by decide
  rw [List.all_cons, ha, Bool.false_and]

/-- C4. Ingesting a document whose extracted text is the scenario's 3000
characters (boundary-free text), with chunk size 1000 and overlap 200,
produces exactly 4 chunks and leaves the document with status completed and
chunkCount 4. -/
theorem C4_ingestion_scenario :
    (RAGService.split_text scenarioText).length = 4 ∧
    DocumentService.process_document_background scenarioStore 1 scenarioEffect =
      { scenarioStore with documents :=
          [{ scenarioDoc with status := .completed, chunkCount := some 4 }] } := by
  have hlen : (RAGService.split_text scenarioText).length = 4 := by
    rw [split_text_scenario]
    rfl
  have hadd : RAGService.add_document_to_vectorstore scenarioText (Except.ok ()) =
      Except.ok 4 := by
    simp only [RAGService.add_document_to_vectorstore, hlen]
  have htry : DocumentService.process_try scenarioEffect = Except.ok 4 := by
    simp only [DocumentService.process_try, scenarioEffect, pyStripIsEmpty_scenario,
      Bool.false_eq_true, if_false, hadd]
  refine ⟨hlen, ?_⟩
  simp only [DocumentService.process_document_background]
  rw [htry]
  decide

/-! ### C6: ingestion failure handling -/

/-- A collaborator outcome on which the try block of the processing run
raises: extraction fails, extraction yields whitespace-only text, or the
vector-index insertion fails. -/
def ProcOutcome.isFailure (eff : ProcOutcome) : Prop :=
  (∃ e, eff.extract = .error e) ∨
  (∃ t, eff.extract = .ok t ∧ pyStripIsEmpty t = true) ∨
  (∃ t e, eff.extract = .ok t ∧ pyStripIsEmpty t = false ∧ eff.index = .error e)

theorem process_try_error_of_failure (eff : ProcOutcome) (hfail : eff.isFailure) :
    ∃ e, DocumentService.process_try eff = .error e := by
  rcases hfail with ⟨e, he⟩ | ⟨t, he, hws⟩ | ⟨t, e, he, hws, hidx⟩
  · exact ⟨e, by simp only [DocumentService.process_try, he]⟩
  · exact ⟨"Extracted text is empty", by simp only [DocumentService.process_try, he, hws, if_true]⟩
  · refine ⟨e, ?_⟩
    simp only [DocumentService.process_try, he, hws, Bool.false_eq_true, if_false,
      RAGService.add_document_to_vectorstore, hidx]

/-- C6. If extraction yields empty or whitespace-only text, or any step of
extraction/chunking/indexing raises, the pipeline sets the document's status
to failed, retains the document record (no row is deleted), and the failure
is absorbed (the processing function is total and returns normally). -/
theorem C6_ingestion_failure_marks_failed (st : Store) (docId : Nat) (eff : ProcOutcome)
    (doc : Document) (hfind : st.documents.find? (fun d => d.id == docId) = some doc)
    (hfail : eff.isFailure) :
    (DocumentService.process_document_background st docId eff).statusOfDocument docId =
        some .failed ∧
    (DocumentService.process_document_background st docId eff).documents.length =
        st.documents.length := by
  obtain ⟨e, htry⟩ := process_try_error_of_failure eff hfail
  have hpd : DocumentService.process_document_background st docId eff =
      { st with documents := st.documents.map (fun d =>
          if d.id == docId then { d with status := .failed } else d) } := by
    simp only [DocumentService.process_document_background]
    rw [hfind, htry]
  rw [hpd]
  constructor
  · exact statusOf_after_update st docId (fun d => { d with status := .failed })
      (fun d => rfl) doc hfind
  · exact List.length_map st.documents _

/-- C6 witness: a concrete run in which extraction yields whitespace-only
text; the document ends failed and is retained. -/
theorem C6_witness :
    (scenarioStore.documents.find? (fun d => d.id == 1) = some scenarioDoc ∧
      ProcOutcome.isFailure ⟨Except.ok [' '], Except.ok ()⟩) ∧
    ((DocumentService.process_document_background scenarioStore 1
        ⟨Except.ok [' '], Except.ok ()⟩).statusOfDocument 1 = some .failed ∧
      (DocumentService.process_document_background scenarioStore 1
        ⟨Except.ok [' '], Except.ok ()⟩).documents.length =
        scenarioStore.documents.length) :=
  ⟨⟨by decide, Or.inr (Or.inl ⟨[' '], rfl, by decide⟩)⟩,
    C6_ingestion_failure_marks_failed scenarioStore 1 ⟨Except.ok [' '], Except.ok ()⟩
      scenarioDoc (by decide) (Or.inr (Or.inl ⟨[' '], rfl, by decide⟩))⟩

/-! ### C5: the status lifecycle -/

theorem statusOf_after_update_ne (st : Store) (i j : Nat) (h : Document → Document)
    (hid : ∀ d, (h d).id = d.id) (hji : j ≠ i) :
    Store.statusOfDocument
      { st with documents := st.documents.map (fun d => if d.id == i then h d else d) } j =
      st.statusOfDocument j := by
  simp only [Store.statusOfDocument]
  rw [find?_map_update st.documents i j h hid]
  cases hfind : st.documents.find? (fun d => d.id == j) with
  | none => rfl
  | some doc =>
    have hdj : doc.id = j := by
      simpa using @List.find?_some Document (fun d => d.id == j) doc st.documents hfind
    simp [hdj, hji]

theorem process_statusOf_ne (st : Store) (i j : Nat) (eff : ProcOutcome) (hji : j ≠ i) :
    (DocumentService.process_document_background st i eff).statusOfDocument j =
      st.statusOfDocument j := by
  simp only [DocumentService.process_document_background]
  cases hfind : st.documents.find? (fun d => d.id == i) with
  | none => rfl
  | some doc =>
    cases htry : DocumentService.process_try eff with
    | ok n => exact statusOf_after_update_ne st i j _ (fun d => rfl) hji
    | error e => exact statusOf_after_update_ne st i j _ (fun d => rfl) hji

theorem process_statusOf_found (st : Store) (i : Nat) (eff : ProcOutcome) (doc : Document)
    (hfind : st.documents.find? (fun d => d.id == i) = some doc) :
    (DocumentService.process_document_background st i eff).statusOfDocument i =
      match DocumentService.process_try eff with
      | .ok _ => some .completed
      | .error _ => some .failed := by
  simp only [DocumentService.process_document_background, hfind]
  cases htry : DocumentService.process_try eff with
  | ok n =>
    dsimp only
    exact statusOf_after_update st i
      (fun d => { d with status := .completed, chunkCount := some n }) (fun d => rfl) doc hfind
  | error e =>
    dsimp only
    exact statusOf_after_update st i
      (fun d => { d with status := .failed }) (fun d => rfl) doc hfind

theorem process_documents_id_lt (st : Store) (i : Nat) (eff : ProcOutcome) (t : Nat)
    (hlt : ∀ doc ∈ st.documents, doc.id < t) :
    ∀ doc ∈ (DocumentService.process_document_background st i eff).documents, doc.id < t := by
  simp only [DocumentService.process_document_background]
  cases hfind : st.documents.find? (fun d => d.id == i) with
  | none => exact hlt
  | some doc =>
    cases htry : DocumentService.process_try eff with
    | ok n =>
      intro d hd
      obtain ⟨x, hx, rfl⟩ := List.mem_map.mp hd
      by_cases hxi : (x.id == i) = true
      · simpa [hxi] using hlt x hx
      · simpa [hxi] using hlt x hx
    | error e =>
      intro d hd
      obtain ⟨x, hx, rfl⟩ := List.mem_map.mp hd
      by_cases hxi : (x.id == i) = true
      · simpa [hxi] using hlt x hx
      · simpa [hxi] using hlt x hx

theorem statusOf_upload_ok (st : Store) (tick : Nat) (u f : String) (ft : FileType)
    (size : Nat) (url : String) (j : Nat)
    (hfresh : ∀ doc ∈ st.documents, doc.id < tick) :
    (DocumentService.upload_document st tick u f ft size (.ok url)).1.statusOfDocument j =
      if j = tick then some .processing else st.statusOfDocument j := by
  simp only [DocumentService.upload_document, Store.statusOfDocument]
  rw [find?_map_update _ tick j (fun x => { x with filePath := url }) (fun d => rfl),
    List.find?_append]
  by_cases hj : j = tick
  · subst hj
    have hnone : st.documents.find? (fun d => d.id == j) = none := by
      rw [List.find?_eq_none]
      intro x hx
      simp only [beq_iff_eq]
      exact Nat.ne_of_lt (hfresh x hx)
    rw [hnone]
    simp
  · have hsing : List.find? (fun d => d.id == j)
        [({ id := tick, userId := some u, filename := f, filePath := "", fileType := ft,
            fileSize := size, status := .processing, chunkCount := some 0,
            deletedAt := none } : Document)] = none := by
      rw [List.find?_eq_none]
      intro x hx
      simp only [List.mem_singleton] at hx
      subst hx
      simp only [beq_iff_eq]
      exact fun hh => hj hh.symm
    rw [hsing, if_neg hj]
    cases hfind : st.documents.find? (fun d => d.id == j) with
    | none => rfl
    | some doc =>
      have hdj : doc.id = j := by
        simpa using @List.find?_some Document (fun d => d.id == j) doc st.documents hfind
      simp [hdj, hj]

theorem upload_fail_store (st : Store) (tick : Nat) (u f : String) (ft : FileType)
    (size : Nat) (e : String)
    (hfresh : ∀ doc ∈ st.documents, doc.id < tick) :
    (DocumentService.upload_document st tick u f ft size (.error e)).1 = st := by
  simp only [DocumentService.upload_document]
  have hfilter : (st.documents ++
      [({ id := tick, userId := some u, filename := f, filePath := "", fileType := ft,
          fileSize := size, status := .processing, chunkCount := some 0,
          deletedAt := none } : Document)]).filter (fun x => x.id != tick) = st.documents := by
    rw [List.filter_append]
    have h1 : st.documents.filter (fun x => x.id != tick) = st.documents :=
      List.filter_eq_self.mpr (fun x hx => by
        simp only [bne_iff_ne, ne_eq]
        exact Nat.ne_of_lt (hfresh x hx))
    have h2 : List.filter (fun x => x.id != tick)
        [({ id := tick, userId := some u, filename := f, filePath := "", fileType := ft,
            fileSize := size, status := .processing, chunkCount := some 0,
            deletedAt := none } : Document)] = [] := by
      simp
    rw [h1, h2, List.append_nil]
  cases st
  simp only [hfilter]

theorem upload_ok_documents_id_lt (st : Store) (tick : Nat) (u f : String) (ft : FileType)
    (size : Nat) (url : String)
    (hfresh : ∀ doc ∈ st.documents, doc.id < tick) :
    ∀ doc ∈ (DocumentService.upload_document st tick u f ft size (.ok url)).1.documents,
      doc.id < tick + 1 := by
  simp only [DocumentService.upload_document]
  intro d hd
  obtain ⟨x, hx, rfl⟩ := List.mem_map.mp hd
  have hxid : x.id < tick + 1 := by
    rcases List.mem_append.mp hx with h | h
    · exact Nat.lt_succ_of_lt (hfresh x h)
    · simp only [List.mem_singleton] at h
      subst h
      exact Nat.lt_succ_self tick
  by_cases hxi : (x.id == tick) = true
  · simpa [hxi] using hxid
  · simpa [hxi] using hxid

theorem upload_ok_shape (st : Store) (tick : Nat) (u f : String) (ft : FileType)
    (size : Nat) (url : String) :
    DocumentService.upload_document st tick u f ft size (.ok url) =
      ((DocumentService.upload_document st tick u f ft size (.ok url)).1,
        some tick, tick + 1) := by
  simp only [DocumentService.upload_document]

theorem upload_fail_shape (st : Store) (tick : Nat) (u f : String) (ft : FileType)
    (size : Nat) (e : String) :
    DocumentService.upload_document st tick u f ft size (.error e) =
      ((DocumentService.upload_document st tick u f ft size (.error e)).1,
        none, tick + 1) := by
  simp only [DocumentService.upload_document]

theorem sysStep_upload_ok (s : SysState) (u f : String) (ft : FileType) (size : Nat)
    (url : String) :
    sysStep s (.upload u f ft size (.ok url)) =
      ⟨(DocumentService.upload_document s.store s.tick u f ft size (.ok url)).1,
        s.scheduled ++ [s.tick], s.tick + 1⟩ := by
  simp only [sysStep]
  rw [upload_ok_shape]

theorem sysStep_upload_fail (s : SysState) (u f : String) (ft : FileType) (size : Nat)
    (e : String) :
    sysStep s (.upload u f ft size (.error e)) =
      ⟨(DocumentService.upload_document s.store s.tick u f ft size (.error e)).1,
        s.scheduled, s.tick + 1⟩ := by
  simp only [sysStep]
  rw [upload_fail_shape]

theorem sysStep_runProcess_mem (s : SysState) (d : Nat) (eff : ProcOutcome)
    (hmem : d ∈ s.scheduled) :
    sysStep s (.runProcess d eff) =
      { s with store := DocumentService.process_document_background s.store d eff,
               scheduled := s.scheduled.erase d } := by
  simp only [sysStep]
  rw [if_pos (by simpa [List.contains] using hmem)]

theorem sysStep_runProcess_not_mem (s : SysState) (d : Nat) (eff : ProcOutcome)
    (hmem : d ∉ s.scheduled) :
    sysStep s (.runProcess d eff) = s := by
  simp only [sysStep]
  rw [if_neg (by simpa [List.contains] using hmem)]

theorem sysStep_inv (s : SysState) (ev : SysEvent) (hinv : SysInv s) :
    SysInv (sysStep s ev) := by
  obtain ⟨h1, h2, h3, h4⟩ := hinv
  cases ev with
  | upload u f ft size gcs =>
    cases gcs with
    | ok url =>
      rw [sysStep_upload_ok]
      refine ⟨?_, ?_, ?_, ?_⟩
      · intro d hd
        dsimp only
        rw [statusOf_upload_ok s.store s.tick u f ft size url d h2]
        rcases List.mem_append.mp hd with hmem | hmem
        · rw [if_neg (Nat.ne_of_lt (h3 d hmem))]
          exact h1 d hmem
        · simp only [List.mem_singleton] at hmem
          subst hmem
          rw [if_pos rfl]
      · dsimp only
        exact upload_ok_documents_id_lt s.store s.tick u f ft size url h2
      · intro d hd
        rcases List.mem_append.mp hd with hmem | hmem
        · exact Nat.lt_succ_of_lt (h3 d hmem)
        · simp only [List.mem_singleton] at hmem
          subst hmem
          exact Nat.lt_succ_self _
      · rw [List.nodup_append]
        refine ⟨h4, List.nodup_singleton _, ?_⟩
        intro a ha hb
        simp only [List.mem_singleton] at hb
        subst hb
        exact absurd (h3 _ ha) (by omega)
    | error e =>
      rw [sysStep_upload_fail, upload_fail_store s.store s.tick u f ft size e h2]
      exact ⟨h1, fun doc hd => Nat.lt_succ_of_lt (h2 doc hd),
        fun d hd => Nat.lt_succ_of_lt (h3 d hd), h4⟩
  | runProcess d eff =>
    by_cases hmem : d ∈ s.scheduled
    · rw [sysStep_runProcess_mem s d eff hmem]
      refine ⟨?_, ?_, ?_, ?_⟩
      · intro x hx
        dsimp only at hx ⊢
        obtain ⟨hxne, hxmem⟩ := (List.Nodup.mem_erase_iff h4).mp hx
        rw [process_statusOf_ne s.store d x eff hxne]
        exact h1 x hxmem
      · dsimp only
        exact process_documents_id_lt s.store d eff s.tick h2
      · intro x hx
        dsimp only at hx
        exact h3 x (List.mem_of_mem_erase hx)
      · dsimp only
        exact h4.erase d
    · rw [sysStep_runProcess_not_mem s d eff hmem]
      exact ⟨h1, h2, h3, h4⟩

theorem sysStep_fresh (s : SysState) (ev : SysEvent) (hinv : SysInv s) (j : Nat)
    (st' : DocumentStatus) (hnone : s.store.statusOfDocument j = none)
    (hsome : (sysStep s ev).store.statusOfDocument j = some st') : st' = .processing := by
  obtain ⟨h1, h2, h3, h4⟩ := hinv
  cases ev with
  | upload u f ft size gcs =>
    cases gcs with
    | ok url =>
      rw [sysStep_upload_ok] at hsome
      dsimp only at hsome
      rw [statusOf_upload_ok s.store s.tick u f ft size url j h2] at hsome
      by_cases hj : j = s.tick
      · rw [if_pos hj] at hsome
        injection hsome with hh
        exact hh.symm
      · rw [if_neg hj, hnone] at hsome
        cases hsome
    | error e =>
      rw [sysStep_upload_fail] at hsome
      dsimp only at hsome
      rw [upload_fail_store s.store s.tick u f ft size e h2, hnone] at hsome
      cases hsome
  | runProcess d eff =>
    by_cases hmem : d ∈ s.scheduled
    · rw [sysStep_runProcess_mem s d eff hmem] at hsome
      dsimp only at hsome
      by_cases hj : j = d
      · subst hj
        have hfind : s.store.documents.find? (fun x => x.id == j) = none :=
          Option.map_eq_none'.mp hnone
        have hid : DocumentService.process_document_background s.store j eff = s.store := by
          simp only [DocumentService.process_document_background, hfind]
        rw [hid, hnone] at hsome
        cases hsome
      · rw [process_statusOf_ne s.store d j eff hj, hnone] at hsome
        cases hsome
    · rw [sysStep_runProcess_not_mem s d eff hmem, hnone] at hsome
      cases hsome

theorem sysStep_some (s : SysState) (ev : SysEvent) (hinv : SysInv s) (j : Nat)
    (stj : DocumentStatus) (hj : s.store.statusOfDocument j = some stj) :
    ∃ st'', (sysStep s ev).store.statusOfDocument j = some st'' ∧
      (st'' = stj ∨ (stj = .processing ∧ (st'' = .completed ∨ st'' = .failed))) := by
  obtain ⟨h1, h2, h3, h4⟩ := hinv
  cases ev with
  | upload u f ft size gcs =>
    cases gcs with
    | ok url =>
      rw [sysStep_upload_ok]
      dsimp only
      rw [statusOf_upload_ok s.store s.tick u f ft size url j h2]
      by_cases hjt : j = s.tick
      · exfalso
        obtain ⟨doc, hfind, _⟩ := Option.map_eq_some'.mp hj
        have hdj : doc.id = j := by
          simpa using @List.find?_some Document (fun x => x.id == j) doc s.store.documents hfind
        have hmem2 := List.mem_of_find?_eq_some hfind
        have hlt := h2 doc hmem2
        omega
      · rw [if_neg hjt]
        exact ⟨stj, hj, Or.inl rfl⟩
    | error e =>
      rw [sysStep_upload_fail]
      dsimp only
      rw [upload_fail_store s.store s.tick u f ft size e h2]
      exact ⟨stj, hj, Or.inl rfl⟩
  | runProcess d eff =>
    by_cases hmem : d ∈ s.scheduled
    · rw [sysStep_runProcess_mem s d eff hmem]
      dsimp only
      by_cases hjd : j = d
      · subst hjd
        have hproc : stj = .processing := by
          have hh := h1 j hmem
          rw [hj] at hh
          exact Option.some.inj hh
        obtain ⟨doc, hfind, _⟩ := Option.map_eq_some'.mp hj
        rw [process_statusOf_found s.store j eff doc hfind]
        cases htry : DocumentService.process_try eff with
        | ok n => exact ⟨.completed, by rfl, Or.inr ⟨hproc, Or.inl rfl⟩⟩
        | error e => exact ⟨.failed, by rfl, Or.inr ⟨hproc, Or.inr rfl⟩⟩
      · rw [process_statusOf_ne s.store d j eff hjd]
        exact ⟨stj, hj, Or.inl rfl⟩
    · rw [sysStep_runProcess_not_mem s d eff hmem]
      exact ⟨stj, hj, Or.inl rfl⟩

theorem sysRun_inv (evs : List SysEvent) : ∀ s, SysInv s → SysInv (sysRun s evs) := by
  induction evs with
  | nil => intro s h; exact h
  | cons ev evs ih => intro s h; exact ih _ (sysStep_inv s ev h)

theorem sysRun_some (evs : List SysEvent) : ∀ s, SysInv s → ∀ j stj,
    s.store.statusOfDocument j = some stj →
    ∃ st'', (sysRun s evs).store.statusOfDocument j = some st'' ∧
      (st'' = stj ∨ (stj = .processing ∧ (st'' = .completed ∨ st'' = .failed))) := by
  induction evs with
  | nil => intro s _ j stj hj; exact ⟨stj, hj, Or.inl rfl⟩
  | cons ev evs ih =>
    intro s hinv j stj hj
    obtain ⟨stm, hm, hrel⟩ := sysStep_some s ev hinv j stj hj
    obtain ⟨st'', h'', hrel2⟩ := ih _ (sysStep_inv s ev hinv) j stm hm
    refine ⟨st'', h'', ?_⟩
    rcases hrel with rfl | ⟨rfl, hmf⟩
    · exact hrel2
    · rcases hrel2 with rfl | ⟨hmp, _⟩
      · exact Or.inr ⟨rfl, hmf⟩
      · rcases hmf with rfl | rfl <;> cases hmp

theorem sysStep_scheduled_decides (s : SysState) (hinv : SysInv s) (d : Nat)
    (eff : ProcOutcome) (hmem : d ∈ s.scheduled) :
    (sysStep s (.runProcess d eff)).store.statusOfDocument d = some .completed ∨
    (sysStep s (.runProcess d eff)).store.statusOfDocument d = some .failed := by
  obtain ⟨h1, _, _, _⟩ := hinv
  rw [sysStep_runProcess_mem s d eff hmem]
  dsimp only
  obtain ⟨doc, hfind, _⟩ := Option.map_eq_some'.mp (h1 d hmem)
  rw [process_statusOf_found s.store d eff doc hfind]
  cases DocumentService.process_try eff with
  | ok n => exact Or.inl rfl
  | error e => exact Or.inr rfl

/-- C5. From any state satisfying the system invariant: steps preserve the
invariant; a document that newly appears does so with status processing;
along any event sequence a document's status either stays what it was or
moves processing → completed or processing → failed (so completed and failed
are terminal, the transition happens at most once, and no step moves
completed to failed or back); and the single scheduled ingestion run of a
document always performs that one transition. -/
theorem C5_status_lifecycle (s : SysState) (hinv : SysInv s) :
    (∀ ev, SysInv (sysStep s ev)) ∧
    (∀ ev j st', s.store.statusOfDocument j = none →
      (sysStep s ev).store.statusOfDocument j = some st' → st' = .processing) ∧
    (∀ evs j stj st', s.store.statusOfDocument j = some stj →
      (sysRun s evs).store.statusOfDocument j = some st' →
      st' = stj ∨ (stj = .processing ∧ (st' = .completed ∨ st' = .failed))) ∧
    (∀ d eff, d ∈ s.scheduled →
      (sysStep s (.runProcess d eff)).store.statusOfDocument d = some .completed ∨
      (sysStep s (.runProcess d eff)).store.statusOfDocument d = some .failed) := by
  refine ⟨fun ev => sysStep_inv s ev hinv,
    fun ev j st' => sysStep_fresh s ev hinv j st', ?_,
    fun d eff hmem => sysStep_scheduled_decides s hinv d eff hmem⟩
  intro evs j stj st' hj hrun
  obtain ⟨st'', h'', hrel⟩ := sysRun_some evs s hinv j stj hj
  rw [hrun] at h''
  injection h'' with hh
  subst hh
  exact hrel

/-- The state after one successful upload, used to instantiate C5. -/
def uploadState1 : SysState :=
  sysStep sysInit (.upload "default-user" "a.pdf" .pdf 10 (.ok "url"))

/-- C5 witness: from the concrete post-upload state (invariant checked by
evaluation), running the scheduled ingestion task moves the document from
processing to completed, as the lifecycle theorem predicts. -/
theorem C5_witness :
    (SysInv uploadState1 ∧
      uploadState1.store.statusOfDocument 0 = some DocumentStatus.processing ∧
      (sysRun uploadState1
        [SysEvent.runProcess 0 ⟨Except.ok ['h'], Except.ok ()⟩]).store.statusOfDocument 0 =
        some DocumentStatus.completed) ∧
    (DocumentStatus.completed = DocumentStatus.processing ∨
      (DocumentStatus.processing = DocumentStatus.processing ∧
        (DocumentStatus.completed = DocumentStatus.completed ∨
          DocumentStatus.completed = DocumentStatus.failed))) :=
  ⟨⟨by unfold SysInv; decide, by decide, by decide⟩,
    (C5_status_lifecycle uploadState1 (by unfold SysInv; decide)).2.2.1
      [SysEvent.runProcess 0 ⟨Except.ok ['h'], Except.ok ()⟩] 0
      DocumentStatus.processing DocumentStatus.completed (by decide) (by decide)⟩

/-! ## Request-path database sessions (database.py + SQLAlchemy semantics)

A request-path session is the committed store plus the session view with all
pending (uncommitted) changes. `commit` publishes the session view to the
database; `rollback` resets the session view to the committed state —
crucially, it cannot undo an earlier commit. -/

structure Db where
  committed : Store
  session : Store
  tick : Nat
deriving DecidableEq, Repr

def Db.commit (db : Db) : Db := { db with committed := db.session }

def Db.rollback (db : Db) : Db := { db with session := db.committed }

/-- Errors crossing the service boundary: fastapi HTTPException (status code
and detail), or a raw library exception (e.g. sqlalchemy scalar_one on a
missing row). -/
inductive Err where
  | http (code : Nat) (detail : String)
  | py (detail : String)
deriving DecidableEq, Repr

/-- schemas/message.py MessageCreate. Python truthiness on the optional
fields: a present-but-empty document id list counts as absent. -/
structure MessageCreate where
  content : String
  chat_id : Option Nat
  document_ids : Option (List Nat)
  category_id : Option Nat
  user_id : String
deriving DecidableEq, Repr

def listTruthy : Option (List Nat) → Bool
  | none => false
  | some l => !l.isEmpty

structure DocumentAttachment where
  id : Nat
  filename : String
deriving DecidableEq, Repr

structure HistoryTurn where
  role : String
  content : String
deriving DecidableEq, Repr

/-- One chunk returned by the vector-index similarity search, with the
metadata fields the message service reads out of it (each one via .get,
hence optional). -/
structure ChunkResult where
  content : String
  document_id : Option Nat
  filename : Option String
  chunk_index : Option Nat
deriving DecidableEq, Repr

/-- The external collaborators of the response-generation step, as oracles:
a possible error raised while loading history from the database, the
similarity-search outcome, and the model-call outcome. -/
structure RagOracle where
  historyError : Option String
  searchSimilarChunks : String → List Nat → Except String (List ChunkResult)
  generateResponse : String → List ChunkResult → List HistoryTurn → Except String String

/-! ### Session inserts (db.add + generated keys/timestamps) -/

def Db.addMessage (db : Db) (chatId : Nat) (role : MessageRole) (content : String)
    (sources : Option (List SourceInfo)) : Message × Db :=
  let m : Message :=
    { id := db.tick, chatId := chatId, role := role, content := content,
      sources := sources, createdAt := db.tick, deletedAt := none }
  (m, { committed := db.committed,
        session := { db.session with messages := db.session.messages ++ [m] },
        tick := db.tick + 1 })

def Db.addChat (db : Db) (userId : String) (categoryId : Option Nat) (title : String) :
    Chat × Db :=
  let c : Chat :=
    { id := db.tick, userId := some userId, categoryId := categoryId,
      title := title, createdAt := db.tick, updatedAt := db.tick, deletedAt := none }
  (c, { committed := db.committed,
        session := { db.session with chats := db.session.chats ++ [c] },
        tick := db.tick + 1 })

def Db.addChatDocument (db : Db) (chatId documentId : Nat) : Db :=
  { db with session := { db.session with chatDocuments := db.session.chatDocuments ++
      [{ chatId := chatId, documentId := documentId, deletedAt := none }] } }

def Db.addMessageDocument (db : Db) (messageId documentId : Nat) : Db :=
  { db with session := { db.session with messageDocuments := db.session.messageDocuments ++
      [{ messageId := messageId, documentId := documentId, deletedAt := none }] } }

/-- The query of message_service.py _get_document: the document by id, not
soft-deleted. -/
def Store.findLiveDocument (st : Store) (docId : Nat) : Option Document :=
  st.documents.find? (fun d => d.id == docId && d.deletedAt.isNone)

namespace ChatService

/-- chat_service.py validate_chat_ownership: the chat must exist, not be
soft-deleted, and belong to the caller; otherwise 404. -/
def validate_chat_ownership (db : Db) (chatId : Nat) (userId : String) :
    Except (Err × Db) (Chat × Db) :=
  match db.session.chats.find? (fun c => c.id == chatId && c.deletedAt.isNone) with
  | none => .error (.http 404 ("Chat not found."), db)
  | some chat =>
    if chat.userId == some userId then .ok (chat, db)
    else .error (.http 404 ("Chat not found._."), db)

end ChatService

namespace CategoryService

/-- category_service.py validate_category_ownership. -/
def validate_category_ownership (db : Db) (categoryId : Nat) (userId : String) :
    Except (Err × Db) (Category × Db) :=
  match db.session.categories.find? (fun c => c.id == categoryId && c.deletedAt.isNone) with
  | none => .error (.http 404 ("Category not found."), db)
  | some category =>
    if category.userId == some userId then .ok (category, db)
    else .error (.http 404 ("Category not found._."), db)

end CategoryService

namespace MessageService

/-- message_service.py _get_document: look up a non-deleted document by id,
404 when absent. -/
def get_document (db : Db) (docId : Nat) : Except (Err × Db) (Document × Db) :=
  match db.session.findLiveDocument docId with
  | some document => .ok (document, db)
  | none => .error (.http 404 ("Document " ++ toString docId ++ " not found."), db)

/-- message_service.py _update_chat_timestamp: scalar_one (raises if the chat
row is missing), then set updatedAt to the current time. -/
def update_chat_timestamp (db : Db) (chatId : Nat) : Except (Err × Db) Db :=
  match db.session.chats.find? (fun c => c.id == chatId) with
  | none => .error (.py ("No row was found when one was required"), db)
  | some _ =>
    .ok { committed := db.committed,
          session := { db.session with chats := db.session.chats.map (fun c =>
            if c.id == chatId then { c with updatedAt := db.tick } else c) },
          tick := db.tick + 1 }

/-- The loop of _attach_documents_to_message: for each id, load the document
(404 aborts the whole call), add a message-document edge, record the
attachment, and collect completed documents for retrieval. -/
def attach_documents_loop (messageId : Nat) :
    Db → List Nat → List DocumentAttachment → List Document →
    Except (Err × Db) ((List DocumentAttachment × List Document) × Db)
  | db, [], atts, rags => .ok ((atts.reverse, rags.reverse), db)
  | db, docId :: rest, atts, rags =>
    match get_document db docId with
    | .error e => .error e
    | .ok (document, db1) =>
      attach_documents_loop messageId (db1.addMessageDocument messageId document.id) rest
        ({ id := document.id, filename := document.filename } :: atts)
        (if document.status == .completed then document :: rags else rags)

/-- message_service.py _attach_documents_to_message: run the loop, then
commit; an exception escapes before the commit. -/
def attach_documents_to_message (db : Db) (messageId : Nat) (documentIds : List Nat) :
    Except (Err × Db) ((List DocumentAttachment × List Document) × Db) :=
  match attach_documents_loop messageId db documentIds [] [] with
  | .error e => .error e
  | .ok (r, db1) => .ok (r, db1.commit)

/-- The loop of _get_chat_documents_for_rag over the chat's non-deleted
chat-document edges: load each non-deleted document, keep the completed
ones. -/
def chat_documents_rag_loop (st : Store) : List ChatDocument → List Document
  | [] => []
  | cd :: rest =>
    match st.findLiveDocument cd.documentId with
    | some doc =>
      if doc.status == .completed then doc :: chat_documents_rag_loop st rest
      else chat_documents_rag_loop st rest
    | none => chat_documents_rag_loop st rest

/-- message_service.py _get_chat_documents_for_rag. -/
def get_chat_documents_for_rag (db : Db) (chatId : Nat) : List Document :=
  chat_documents_rag_loop db.session
    (db.session.chatDocuments.filter (fun cd => cd.chatId == chatId && cd.deletedAt.isNone))

/-- Descending insertion by createdAt: the ORDER BY createdAt DESC of the
history query. -/
def insertByCreatedAtDesc (m : Message) : List Message → List Message
  | [] => [m]
  | x :: xs =>
    if x.createdAt ≤ m.createdAt then m :: x :: xs
    else x :: insertByCreatedAtDesc m xs

def sortByCreatedAtDesc : List Message → List Message
  | [] => []
  | m :: ms => insertByCreatedAtDesc m (sortByCreatedAtDesc ms)

/-- message_service.py _get_conversation_history: the chat's non-deleted
messages ordered newest first, limited to limit * 2 rows, reversed back to
chronological order, projected to role/content pairs. -/
def get_conversation_history (db : Db) (chatId : Nat) (limit : Nat) : List HistoryTurn :=
  let msgs := db.session.messages.filter (fun m => m.chatId == chatId && m.deletedAt.isNone)
  let recent := (sortByCreatedAtDesc msgs).take (limit * 2)
  let chronological := recent.reverse
  chronological.map (fun m => { role := m.role.value, content := m.content })

/-- Python str(id) for an optional document id read out of chunk metadata. -/
def pyOptId : Option Nat → String
  | none => "None"
  | some i => toString i

/-- The sources list built from retrieved chunks in _generate_ai_response:
document id, filename (default Unknown), synthetic chunk id, no page, the
placeholder similarity, and a 200-character preview. -/
def buildSources (contextChunks : List ChunkResult) : List SourceInfo :=
  contextChunks.enum.map (fun p =>
    { document_id := p.2.document_id,
      document_name := p.2.filename.getD "Unknown",
      chunk_id := pyOptId p.2.document_id ++ "_" ++ toString (p.2.chunk_index.getD p.1),
      page := none,
      similarity := 0,
      content_preview := p.2.content.take 200 })

/-- The literal apology prefix of the degraded assistant message. -/
def apologyContent (e : String) : String :=
  "죄송합니다. AI 응답 생성 중 오류가 발생했습니다: " ++ e

def errString : Err → String
  | .http _ detail => detail
  | .py detail => detail

/-- The try block of _generate_ai_response: load history, run retrieval when
documents were resolved, call the model (grounded or ungrounded), build
citations only when chunks were retrieved, persist the assistant message,
touch the chat timestamp, commit. Any raise inside carries the state at the
raise point to the except handler. -/
def generate_ai_try (o : RagOracle) (db : Db) (chatId : Nat) (userQuery : String)
    (documentsForRag : List Document) : Except (String × Db) (Message × Db) :=
  match o.historyError with
  | some e => .error (e, db)
  | none =>
    let conversationHistory := get_conversation_history db chatId settings.MAX_CONVERSATION_HISTORY
    let step : Except (String × Db) ((String × Option (List SourceInfo)) × Db) :=
      if !documentsForRag.isEmpty then
        match o.searchSimilarChunks userQuery (documentsForRag.map (fun d => d.id)) with
        | .error e => .error (e, db)
        | .ok contextChunks =>
          if !contextChunks.isEmpty then
            match o.generateResponse userQuery contextChunks conversationHistory with
            | .error e => .error (e, db)
            | .ok assistantContent =>
              let sources := buildSources contextChunks
              .ok ((assistantContent, if sources.isEmpty then none else some sources), db)
          else
            match o.generateResponse userQuery [] conversationHistory with
            | .error e => .error (e, db)
            | .ok assistantContent => .ok ((assistantContent, none), db)
      else
        match o.generateResponse userQuery [] conversationHistory with
        | .error e => .error (e, db)
        | .ok assistantContent => .ok ((assistantContent, none), db)
    match step with
    | .error e => .error e
    | .ok ((assistantContent, assistantSources), db1) =>
      let am := db1.addMessage chatId .assistant assistantContent assistantSources
      match update_chat_timestamp am.2 chatId with
      | .error (e2, db3) => .error (errString e2, db3)
      | .ok db3 => .ok (am.1, db3.commit)

/-- message_service.py _generate_ai_response: the try block above; on any
exception, roll back, persist the apology assistant message without sources,
touch the chat timestamp and commit (a failure of that second timestamp
update would escape, mirroring the code). -/
def generate_ai_response (o : RagOracle) (db : Db) (chatId : Nat) (userQuery : String)
    (documentsForRag : List Document) : Except (Err × Db) (Message × Db) :=
  match generate_ai_try o db chatId userQuery documentsForRag with
  | .ok r => .ok r
  | .error (e, db1) =>
    let db2 := db1.rollback
    let am := db2.addMessage chatId .assistant (apologyContent e) none
    match update_chat_timestamp am.2 chatId with
    | .error e2 => .error e2
    | .ok db3 => .ok (am.1, db3.commit)

end MessageService

structure ChatCreateInfo where
  id : Nat
  title : String
  category : Option (Nat × String)
  documents : List (Nat × String)
  created_at : Nat
deriving DecidableEq, Repr

structure MessageResponse where
  id : Nat
  chat_id : Nat
  role : String
  content : String
  attached_documents : List DocumentAttachment
  sources : Option (List SourceInfo)
  created_at : Nat
deriving DecidableEq, Repr

structure MessageCreateResponse where
  chat : Option ChatCreateInfo
  user_message : MessageResponse
  assistant_message : MessageResponse
deriving DecidableEq, Repr

namespace MessageService

/-- The document-attachment loop of _create_new_chat_with_message: load each
named document (404 propagates after a rollback), reject failed-status
documents with 400 after a rollback, otherwise add a chat-document edge. -/
def chat_documents_attach_loop (chatId : Nat) :
    Db → List Nat → List (Nat × String) → Except (Err × Db) (List (Nat × String) × Db)
  | db, [], infos => .ok (infos.reverse, db)
  | db, docId :: rest, infos =>
    match get_document db docId with
    | .error (e, db1) => .error (e, db1.rollback)
    | .ok (document, db1) =>
      if document.status == .failed then
        .error (.http 400 ("Document " ++ document.filename ++ " processing failed."),
          db1.rollback)
      else
        chat_documents_attach_loop chatId (db1.addChatDocument chatId document.id) rest
          ((document.id, document.filename) :: infos)

/-- message_service.py _create_new_chat_with_message: validate the category
when given, create and commit the chat titled with the first 50 characters
of the content, then attach the named documents (the chat was already
committed when this loop runs) and commit the edges. -/
def create_new_chat_with_message (db : Db) (md : MessageCreate) :
    Except (Err × Db) (ChatCreateInfo × Db) :=
  let step1 : Except (Err × Db) (Option (Nat × String) × Db) :=
    match md.category_id with
    | some cid =>
      match CategoryService.validate_category_ownership db cid md.user_id with
      | .error e => .error e
      | .ok (category, db1) => .ok (some (category.id, category.name), db1)
    | none => .ok (none, db)
  match step1 with
  | .error e => .error e
  | .ok (categoryInfo, db1) =>
    let title := md.content.take 50
    let cc := db1.addChat md.user_id md.category_id title
    let newChat := cc.1
    let db2 := cc.2.commit
    if listTruthy md.document_ids then
      match chat_documents_attach_loop newChat.id db2 (md.document_ids.getD []) [] with
      | .error e => .error e
      | .ok (documentsInfo, db3) =>
        .ok (⟨newChat.id, newChat.title, categoryInfo, documentsInfo, newChat.createdAt⟩,
          db3.commit)
    else
      .ok (⟨newChat.id, newChat.title, categoryInfo, [], newChat.createdAt⟩, db2)

/-- The document-resolution block of create_message (lines 462-482): tier 1,
explicitly named ids via _attach_documents_to_message; else tier 2, the
chat's linked completed documents; else tier 3, all of the user's completed
non-deleted documents. -/
def resolve_documents_for_rag (db : Db) (userMessageId chatId : Nat) (md : MessageCreate) :
    Except (Err × Db) ((List DocumentAttachment × List Document) × Db) :=
  if listTruthy md.document_ids then
    attach_documents_to_message db userMessageId (md.document_ids.getD [])
  else
    let documentsForRag := get_chat_documents_for_rag db chatId
    let documentsForRag :=
      if documentsForRag.isEmpty then
        db.session.documents.filter (fun d =>
          d.userId == some md.user_id && d.status == DocumentStatus.completed &&
            d.deletedAt.isNone)
      else documentsForRag
    .ok (([], documentsForRag), db)

/-- message_service.py create_message: create or validate the chat, persist
and commit the user message, resolve the grounding documents, generate and
persist the assistant message, and shape the response. -/
def create_message (o : RagOracle) (db : Db) (md : MessageCreate) :
    Except (Err × Db) (MessageCreateResponse × Db) :=
  let step1 : Except (Err × Db) ((Option ChatCreateInfo × Nat) × Db) :=
    match md.chat_id with
    | none =>
      match create_new_chat_with_message db md with
      | .error e => .error e
      | .ok (chatInfo, db1) => .ok ((some chatInfo, chatInfo.id), db1)
    | some cid =>
      match ChatService.validate_chat_ownership db cid md.user_id with
      | .error e => .error e
      | .ok (chat, db1) => .ok ((none, chat.id), db1)
  match step1 with
  | .error e => .error e
  | .ok ((chatInfo, chatId), db1) =>
    let um := db1.addMessage chatId .user md.content none
    let userMessage := um.1
    let db2 := um.2.commit
    match resolve_documents_for_rag db2 userMessage.id chatId md with
    | .error e => .error e
    | .ok ((attachedDocuments, documentsForRag), db3) =>
      match generate_ai_response o db3 chatId md.content documentsForRag with
      | .error e => .error e
      | .ok (assistantMessage, db4) =>
        let userResponse : MessageResponse :=
          { id := userMessage.id, chat_id := userMessage.chatId,
            role := userMessage.role.value, content := userMessage.content,
            attached_documents := attachedDocuments, sources := none,
            created_at := userMessage.createdAt }
        let assistantResponse : MessageResponse :=
          { id := assistantMessage.id, chat_id := assistantMessage.chatId,
            role := assistantMessage.role.value, content := assistantMessage.content,
            attached_documents := [], sources := assistantMessage.sources,
            created_at := assistantMessage.createdAt }
        .ok ({ chat := chatInfo, user_message := userResponse,
               assistant_message := assistantResponse }, db4)

end MessageService

/-! ### C7 and C9: the conversation history window -/

/-- The chat's non-deleted messages in table (chronological) order. -/
def chronologicalMessages (st : Store) (chatId : Nat) : List Message :=
  st.messages.filter (fun m => m.chatId == chatId && m.deletedAt.isNone)

theorem insertByCreatedAtDesc_append (m : Message) :
    ∀ l : List Message, (∀ x ∈ l, m.createdAt < x.createdAt) →
      MessageService.insertByCreatedAtDesc m l = l ++ [m] := by
  intro l
  induction l with
  | nil => intro _; rfl
  | cons x xs ih =>
    intro h
    rw [MessageService.insertByCreatedAtDesc]
    have hx := h x (List.mem_cons_self x xs)
    rw [if_neg (by omega)]
    rw [ih (fun y hy => h y (List.mem_cons_of_mem x hy))]
    rfl

theorem sortByCreatedAtDesc_of_ascending :
    ∀ l : List Message, l.Pairwise (fun a b => a.createdAt < b.createdAt) →
      MessageService.sortByCreatedAtDesc l = l.reverse := by
  intro l
  induction l with
  | nil => intro _; rfl
  | cons m ms ih =>
    intro h
    rw [MessageService.sortByCreatedAtDesc, ih (List.Pairwise.of_cons h)]
    rw [insertByCreatedAtDesc_append m ms.reverse
      (fun x hx => (List.pairwise_cons.mp h).1 x (List.mem_reverse.mp hx))]
    rw [List.reverse_cons]

/-- The history query, characterised: under strictly ascending timestamps it
returns exactly the last limit * 2 chronological non-deleted messages of the
chat, oldest first, projected to turns. -/
theorem get_conversation_history_eq (db : Db) (chatId : Nat) (limit : Nat)
    (hasc : db.session.messages.Pairwise (fun a b => a.createdAt < b.createdAt)) :
    MessageService.get_conversation_history db chatId limit =
      ((chronologicalMessages db.session chatId).drop
        ((chronologicalMessages db.session chatId).length - limit * 2)).map
        (fun m => { role := m.role.value, content := m.content }) := by
  simp only [MessageService.get_conversation_history, chronologicalMessages]
  rw [sortByCreatedAtDesc_of_ascending _ (List.Pairwise.filter _ hasc)]
  rw [List.take_reverse, List.reverse_reverse]

/-- C7. The conversation history loader, given a chat id and the pair bound,
returns exactly the most recent limit * 2 non-deleted messages of that chat
(fewer when the chat has fewer), in chronological order oldest first. -/
theorem C7_history_window (db : Db) (chatId : Nat) (limit : Nat)
    (hasc : db.session.messages.Pairwise (fun a b => a.createdAt < b.createdAt)) :
    MessageService.get_conversation_history db chatId limit =
      ((chronologicalMessages db.session chatId).drop
        ((chronologicalMessages db.session chatId).length - limit * 2)).map
        (fun m => { role := m.role.value, content := m.content }) :=
  get_conversation_history_eq db chatId limit hasc

/-- A concrete session with one chat and three messages, for instantiating
the history theorems. -/
def messagesDb3 : Db :=
  let c : Chat :=
    { id := 0, userId := some "default-user", categoryId := none,
      title := "t", createdAt := 0, updatedAt := 0, deletedAt := none }
  let m1 : Message :=
    { id := 1, chatId := 0, role := .user, content := "q1",
      sources := none, createdAt := 1, deletedAt := none }
  let m2 : Message :=
    { id := 2, chatId := 0, role := .assistant, content := "a1",
      sources := none, createdAt := 2, deletedAt := none }
  let m3 : Message :=
    { id := 3, chatId := 0, role := .user, content := "q2",
      sources := none, createdAt := 3, deletedAt := none }
  let st : Store := { emptyStore with chats := [c], messages := [m1, m2, m3] }
  ⟨st, st, 4⟩

/-- C7 witness: a three-message chat with pair bound 1 yields exactly the
last two messages, oldest first. -/
theorem C7_witness :
    (messagesDb3.session.messages.Pairwise (fun a b => a.createdAt < b.createdAt)) ∧
    MessageService.get_conversation_history messagesDb3 0 1 =
      ((chronologicalMessages messagesDb3.session 0).drop
        ((chronologicalMessages messagesDb3.session 0).length - 1 * 2)).map
        (fun m => { role := m.role.value, content := m.content }) :=
  ⟨by decide, C7_history_window messagesDb3 0 1 (by decide)⟩

def emptyDb : Db := ⟨emptyStore, emptyStore, 0⟩

/-- C9. The user turn is persisted and committed before the history window is
loaded, so the history the generator receives ends with the just-received
user message itself (the window size 2 * MAX_CONVERSATION_HISTORY = 20 is
at least one). -/
theorem C9_history_ends_with_user_turn (db : Db) (chatId : Nat) (content : String)
    (hasc : db.session.messages.Pairwise (fun a b => a.createdAt < b.createdAt))
    (hlt : ∀ m ∈ db.session.messages, m.createdAt < db.tick) :
    MessageService.get_conversation_history
        ((db.addMessage chatId .user content none).2.commit) chatId
        settings.MAX_CONVERSATION_HISTORY ≠ [] ∧
    (MessageService.get_conversation_history
        ((db.addMessage chatId .user content none).2.commit) chatId
        settings.MAX_CONVERSATION_HISTORY).getLast? =
      some ({ role := "user", content := content } : HistoryTurn) := by
  have hsess : ((db.addMessage chatId .user content none).2.commit).session.messages =
      db.session.messages ++
        [{ id := db.tick, chatId := chatId, role := .user, content := content,
           sources := none, createdAt := db.tick, deletedAt := none }] := rfl
  have hasc2 : (((db.addMessage chatId .user content none).2.commit).session.messages).Pairwise
      (fun a b => a.createdAt < b.createdAt) := by
    rw [hsess, List.pairwise_append]
    refine ⟨hasc, List.pairwise_singleton _ _, ?_⟩
    intro a ha b hb
    simp only [List.mem_singleton] at hb
    subst hb
    exact hlt a ha
  have heq := get_conversation_history_eq
    ((db.addMessage chatId .user content none).2.commit) chatId
    settings.MAX_CONVERSATION_HISTORY hasc2
  have hchron : chronologicalMessages
      ((db.addMessage chatId .user content none).2.commit).session chatId =
      chronologicalMessages db.session chatId ++
        [{ id := db.tick, chatId := chatId, role := .user, content := content,
           sources := none, createdAt := db.tick, deletedAt := none }] := by
    simp only [chronologicalMessages, hsess, List.filter_append]
    congr 1
    simp
  rw [heq, hchron]
  have hlen : (chronologicalMessages db.session chatId ++
      [({ id := db.tick, chatId := chatId, role := .user, content := content,
          sources := none, createdAt := db.tick, deletedAt := none } : Message)]).length =
      (chronologicalMessages db.session chatId).length + 1 := by
    simp
  rw [hlen]
  simp only [show settings.MAX_CONVERSATION_HISTORY = 10 from rfl]
  rw [List.drop_append_of_le_length (by omega), List.map_append]
  constructor
  · simp
  · rw [show (List.map (fun m => ({ role := m.role.value, content := m.content } : HistoryTurn))
        [({ id := db.tick, chatId := chatId, role := .user, content := content,
            sources := none, createdAt := db.tick, deletedAt := none } : Message)]) =
        [({ role := "user", content := content } : HistoryTurn)] from rfl]
    exact List.getLast?_concat _

/-- C9 witness: on the empty database, after persisting and committing the
user turn, the loaded history is exactly that one user turn. -/
theorem C9_witness :
    (emptyDb.session.messages.Pairwise (fun a b => a.createdAt < b.createdAt) ∧
      (∀ m ∈ emptyDb.session.messages, m.createdAt < emptyDb.tick)) ∧
    (MessageService.get_conversation_history
        ((emptyDb.addMessage 5 .user "hello" none).2.commit) 5
        settings.MAX_CONVERSATION_HISTORY ≠ [] ∧
      (MessageService.get_conversation_history
          ((emptyDb.addMessage 5 .user "hello" none).2.commit) 5
          settings.MAX_CONVERSATION_HISTORY).getLast? =
        some ({ role := "user", content := "hello" } : HistoryTurn)) :=
  ⟨⟨by decide, by decide⟩,
    C9_history_ends_with_user_turn emptyDb 5 "hello" (by decide) (by decide)⟩

/-! ### C2: generation failure degrades but never escapes -/

theorem find?_map_update_chat (l : List Chat) (i j : Nat) (h : Chat → Chat)
    (hid : ∀ c, (h c).id = c.id) :
    (l.map (fun c => if c.id == i then h c else c)).find? (fun c => c.id == j) =
      (l.find? (fun c => c.id == j)).map (fun c => if c.id == i then h c else c) := by
  rw [List.find?_map]
  have hp : ((fun c => c.id == j) ∘ fun c => if (c.id == i) = true then h c else c) =
      (fun c : Chat => c.id == j) := by
    funext c
    by_cases hci : (c.id == i) = true
    · simp [Function.comp, hci, hid]
    · simp [Function.comp, hci]
  rw [hp]

/-- C2. Whenever the response-generation try block (history load, similarity
search, or model call) raises, the orchestrator still returns successfully
with a persisted assistant message whose content is the apology text naming
the failure, carrying no citations, and the chat's updated timestamp is
touched; no generation exception reaches the caller (the chat row exists in
the committed store at that point, as create_message guarantees). -/
theorem C2_generation_failure_degraded (o : RagOracle) (db : Db) (chatId : Nat) (q : String)
    (docs : List Document) (e : String) (db1 : Db) (c : Chat)
    (herr : MessageService.generate_ai_try o db chatId q docs = .error (e, db1))
    (hchat : db1.committed.chats.find? (fun x => x.id == chatId) = some c) :
    ∃ m db2, MessageService.generate_ai_response o db chatId q docs = .ok (m, db2) ∧
      m.role = .assistant ∧ m.content = MessageService.apologyContent e ∧
      m.sources = none ∧ m ∈ db2.committed.messages ∧
      ∃ c2, db2.committed.chats.find? (fun x => x.id == chatId) = some c2 ∧
        c2.updatedAt = db1.tick + 1 := by
  simp only [MessageService.generate_ai_response, herr]
  cases hupd : MessageService.update_chat_timestamp
      ((db1.rollback.addMessage chatId .assistant
        (MessageService.apologyContent e) none)).2 chatId with
  | error p =>
    exfalso
    simp only [MessageService.update_chat_timestamp, Db.rollback, Db.addMessage] at hupd
    rw [hchat] at hupd
    cases hupd
  | ok db3 =>
    simp only [MessageService.update_chat_timestamp, Db.rollback, Db.addMessage] at hupd
    rw [hchat] at hupd
    have hdb3 := (Except.ok.inj hupd).symm
    refine ⟨(db1.rollback.addMessage chatId .assistant
      (MessageService.apologyContent e) none).1, db3.commit, rfl, rfl, rfl, rfl, ?_, ?_⟩
    · rw [hdb3]
      simp only [Db.commit, Db.rollback, Db.addMessage]
      exact List.mem_append_right _ (List.mem_singleton_self _)
    · rw [hdb3]
      simp only [Db.commit, Db.rollback, Db.addMessage]
      have hcc : (c.id == chatId) = true :=
        @List.find?_some Chat (fun x => x.id == chatId) c db1.committed.chats hchat
      rw [find?_map_update_chat db1.committed.chats chatId chatId
        (fun x => { x with updatedAt := db1.tick + 1 }) (fun x => rfl), hchat]
      refine ⟨_, rfl, ?_⟩
      simp [hcc]

deriving instance DecidableEq for Except

/-- An oracle whose model call fails. -/
def failingOracle : RagOracle :=
  ⟨none, fun _ _ => .ok [], fun _ _ _ => .error ("model unavailable")⟩

/-- The chat row of the one-chat witness database. -/
def chatRow0 : Chat :=
  { id := 0, userId := some "default-user", categoryId := none,
    title := "t", createdAt := 0, updatedAt := 0, deletedAt := none }

def chatDb1 : Db :=
  let st : Store := { emptyStore with chats := [chatRow0] }
  ⟨st, st, 1⟩

/-- C2 witness: with a failing model call on a one-chat database, the
orchestrator still returns ok with the persisted apology turn and a touched
chat timestamp. -/
theorem C2_witness :
    (MessageService.generate_ai_try failingOracle chatDb1 0 "hi" [] =
        Except.error ("model unavailable", chatDb1) ∧
      chatDb1.committed.chats.find? (fun x => x.id == 0) = some chatRow0) ∧
    (∃ m db2, MessageService.generate_ai_response failingOracle chatDb1 0 "hi" [] =
        .ok (m, db2) ∧
      m.role = .assistant ∧
      m.content = MessageService.apologyContent "model unavailable" ∧
      m.sources = none ∧ m ∈ db2.committed.messages ∧
      ∃ c2, db2.committed.chats.find? (fun x => x.id == 0) = some c2 ∧
        c2.updatedAt = chatDb1.tick + 1) :=
  ⟨⟨by decide, by decide⟩,
    C2_generation_failure_degraded failingOracle chatDb1 0 "hi" [] "model unavailable"
      chatDb1 chatRow0 (by decide) (by decide)⟩

/-! ### C8: citations appear exactly when chunks were retrieved -/

theorem buildSources_length (chunks : List ChunkResult) :
    (MessageService.buildSources chunks).length = chunks.length := by
  simp [MessageService.buildSources]

/-- The sources field of a successfully generated assistant message: either
the grounded case with a nonempty retrieved chunk list, or no citations. -/
theorem generate_ai_try_sources_spec (o : RagOracle) (db : Db) (chatId : Nat) (q : String)
    (docs : List Document) (m : Message) (db2 : Db)
    (htry : MessageService.generate_ai_try o db chatId q docs = .ok (m, db2)) :
    (∃ chunks, docs.isEmpty = false ∧
        o.searchSimilarChunks q (docs.map (fun d => d.id)) = .ok chunks ∧
        chunks.isEmpty = false ∧
        m.sources = some (MessageService.buildSources chunks)) ∨
    m.sources = none := by
  simp only [MessageService.generate_ai_try] at htry
  cases hhe : o.historyError with
  | some e2 => rw [hhe] at htry; cases htry
  | none =>
    rw [hhe] at htry
    dsimp only at htry
    by_cases hde : docs.isEmpty
    · rw [hde] at htry
      simp only [Bool.not_true, Bool.false_eq_true, if_false] at htry
      cases hgen : o.generateResponse q [] (MessageService.get_conversation_history db chatId
          settings.MAX_CONVERSATION_HISTORY) with
      | error e2 => rw [hgen] at htry; dsimp only at htry; cases htry
      | ok content =>
        rw [hgen] at htry
        dsimp only at htry
        cases hupd : MessageService.update_chat_timestamp
            ((db.addMessage chatId .assistant content none)).2 chatId with
        | error p =>
          rw [hupd] at htry
          dsimp only at htry
          exact absurd htry (by rcases p with ⟨e3, db3⟩; simp)
        | ok db3 =>
          rw [hupd] at htry
          dsimp only at htry
          right
          have hm := (Prod.mk.injEq _ _ _ _).mp (Except.ok.inj htry)
          rw [← hm.1]
          rfl
    · have hde2 : docs.isEmpty = false := by
        cases h : docs.isEmpty
        · rfl
        · exact absurd h hde
      rw [hde2] at htry
      simp only [Bool.not_false, if_true] at htry
      cases hs : o.searchSimilarChunks q (docs.map (fun d => d.id)) with
      | error e2 => rw [hs] at htry; dsimp only at htry; cases htry
      | ok chunks =>
        rw [hs] at htry
        dsimp only at htry
        by_cases hce : chunks.isEmpty
        · rw [hce] at htry
          simp only [Bool.not_true, Bool.false_eq_true, if_false] at htry
          cases hgen : o.generateResponse q [] (MessageService.get_conversation_history db chatId
              settings.MAX_CONVERSATION_HISTORY) with
          | error e2 => rw [hgen] at htry; dsimp only at htry; cases htry
          | ok content =>
            rw [hgen] at htry
            dsimp only at htry
            cases hupd : MessageService.update_chat_timestamp
                ((db.addMessage chatId .assistant content none)).2 chatId with
            | error p =>
              rw [hupd] at htry
              dsimp only at htry
              exact absurd htry (by rcases p with ⟨e3, db3⟩; simp)
            | ok db3 =>
              rw [hupd] at htry
              dsimp only at htry
              right
              have hm := (Prod.mk.injEq _ _ _ _).mp (Except.ok.inj htry)
              rw [← hm.1]
              rfl
        · have hce2 : chunks.isEmpty = false := by
            cases h : chunks.isEmpty
            · rfl
            · exact absurd h hce
          rw [hce2] at htry
          simp only [Bool.not_false, if_true] at htry
          cases hgen : o.generateResponse q chunks
              (MessageService.get_conversation_history db chatId
                settings.MAX_CONVERSATION_HISTORY) with
          | error e2 => rw [hgen] at htry; dsimp only at htry; cases htry
          | ok content =>
            rw [hgen] at htry
            dsimp only at htry
            have hbsne : (MessageService.buildSources chunks).isEmpty = false := by
              rw [List.isEmpty_eq_false_iff_exists_mem]
              rw [List.isEmpty_eq_false_iff_exists_mem] at hce2
              obtain ⟨x, hx⟩ := hce2
              have hpos : 0 < (MessageService.buildSources chunks).length := by
                rw [buildSources_length chunks]
                exact List.length_pos_of_mem hx
              exact List.exists_mem_of_length_pos hpos
            rw [hbsne] at htry
            simp only [Bool.false_eq_true, if_false] at htry
            cases hupd : MessageService.update_chat_timestamp
                ((db.addMessage chatId .assistant content
                  (some (MessageService.buildSources chunks)))).2 chatId with
            | error p =>
              rw [hupd] at htry
              dsimp only at htry
              exact absurd htry (by rcases p with ⟨e3, db3⟩; simp)
            | ok db3 =>
              rw [hupd] at htry
              dsimp only at htry
              left
              refine ⟨chunks, hde2, rfl, hce2, ?_⟩
              have hm := (Prod.mk.injEq _ _ _ _).mp (Except.ok.inj htry)
              rw [← hm.1]
              rfl

/-- C8. If the persisted assistant message of a successful orchestrator run
carries citations, then the similarity search returned at least one chunk
(one citation per chunk); and whenever zero chunks were retrieved — because
no document was eligible or the search returned none — the message carries
no citations. -/
theorem C8_citations_iff_chunks (o : RagOracle) (db : Db) (chatId : Nat) (q : String)
    (docs : List Document) (m : Message) (db2 : Db)
    (hok : MessageService.generate_ai_response o db chatId q docs = .ok (m, db2)) :
    ((docs = [] ∨ o.searchSimilarChunks q (docs.map (fun d => d.id)) = .ok []) →
      m.sources = none) ∧
    (∀ l, m.sources = some l →
      ∃ chunks, o.searchSimilarChunks q (docs.map (fun d => d.id)) = .ok chunks ∧
        chunks ≠ [] ∧ l.length = chunks.length) := by
  simp only [MessageService.generate_ai_response] at hok
  cases htry : MessageService.generate_ai_try o db chatId q docs with
  | error p =>
    rcases p with ⟨e, db1⟩
    rw [htry] at hok
    dsimp only at hok
    cases hupd : MessageService.update_chat_timestamp
        ((db1.rollback.addMessage chatId .assistant
          (MessageService.apologyContent e) none)).2 chatId with
    | error p2 =>
      rw [hupd] at hok
      dsimp only at hok
      exact absurd hok (by rcases p2 with ⟨e3, db3⟩; simp)
    | ok db3 =>
      rw [hupd] at hok
      dsimp only at hok
      have hm := (Prod.mk.injEq _ _ _ _).mp (Except.ok.inj hok)
      have hsrc : m.sources = none := by rw [← hm.1]; rfl
      constructor
      · intro _
        exact hsrc
      · intro l hl
        rw [hsrc] at hl
        cases hl
  | ok r =>
    rcases r with ⟨m2, db2x⟩
    rw [htry] at hok
    dsimp only at hok
    have hm := (Prod.mk.injEq _ _ _ _).mp (Except.ok.inj hok)
    rcases generate_ai_try_sources_spec o db chatId q docs m2 db2x htry with
      ⟨chunks, hde, hs, hce, hsome⟩ | hnone
    · constructor
      · intro hzero
        exfalso
        rcases hzero with hd0 | hs0
        · rw [hd0] at hde
          simp at hde
        · rw [hs0] at hs
          have hnil : ([] : List ChunkResult) = chunks := Except.ok.inj hs
          rw [← hnil] at hce
          simp at hce
      · intro l hl
        rw [← hm.1, hsome] at hl
        have hll := Option.some.inj hl
        refine ⟨chunks, hs, ?_, ?_⟩
        · intro hnil
          rw [hnil] at hce
          simp at hce
        · rw [← hll, buildSources_length]
    · constructor
      · intro _
        rw [← hm.1]
        exact hnone
      · intro l hl
        rw [← hm.1, hnone] at hl
        cases hl

/-- An oracle that succeeds with no retrieved chunks. -/
def okOracle : RagOracle :=
  ⟨none, fun _ _ => .ok [], fun _ _ _ => .ok ("answer")⟩

def c8Message : Message :=
  { id := 1, chatId := 0, role := .assistant, content := "answer",
    sources := none, createdAt := 1, deletedAt := none }

def c8Store : Store :=
  { emptyStore with chats := [{ chatRow0 with updatedAt := 2 }], messages := [c8Message] }

def c8Db : Db := ⟨c8Store, c8Store, 3⟩

/-- C8 witness: a concrete run with no eligible document yields an assistant
message without citations. -/
theorem C8_witness :
    (MessageService.generate_ai_response okOracle chatDb1 0 "hi" [] =
      .ok (c8Message, c8Db)) ∧ c8Message.sources = none :=
  ⟨by decide,
    (C8_citations_iff_chunks okOracle chatDb1 0 "hi" [] c8Message c8Db (by decide)).1
      (Or.inl rfl)⟩

/-! ### C3: the document-resolution fallback chain -/

/-- The claim's resolution rule, stated from the spec (section 4.2), to be
compared with the code's resolution block: tier 1, exactly the explicitly
named ids (each must exist and not be soft-deleted, else a hard 404)
filtered to completed; else tier 2, the chat's non-deleted linked documents
filtered to completed; else tier 3 (only when tier 2 is empty), all of the
user's completed non-deleted documents. -/
def specLookupDocuments (docs : List Document) : List Nat → Except Err (List Document)
  | [] => .ok []
  | i :: rest =>
    match docs.find? (fun d => d.id == i && d.deletedAt.isNone) with
    | none => .error (.http 404 ("Document " ++ toString i ++ " not found."))
    | some d =>
      match specLookupDocuments docs rest with
      | .error e => .error e
      | .ok ds => .ok (d :: ds)

def specChatLinkedCompleted (st : Store) (chatId : Nat) : List Document :=
  ((st.chatDocuments.filter (fun cd => cd.chatId == chatId && cd.deletedAt.isNone)).filterMap
    (fun cd => st.findLiveDocument cd.documentId)).filter
    (fun d => d.status == DocumentStatus.completed)

def specResolveDocuments (st : Store) (md : MessageCreate) (chatId : Nat) :
    Except Err (List Document) :=
  if listTruthy md.document_ids then
    match specLookupDocuments st.documents (md.document_ids.getD []) with
    | .error e => .error e
    | .ok ds => .ok (ds.filter (fun d => d.status == DocumentStatus.completed))
  else
    let linked := specChatLinkedCompleted st chatId
    if !linked.isEmpty then .ok linked
    else .ok (st.documents.filter (fun d =>
      d.userId == some md.user_id && d.status == DocumentStatus.completed &&
        d.deletedAt.isNone))

theorem attach_loop_matches_lookup (mid : Nat) :
    ∀ (ids : List Nat) (db : Db) (atts : List DocumentAttachment) (rags : List Document),
      (match MessageService.attach_documents_loop mid db ids atts rags,
          specLookupDocuments db.session.documents ids with
      | .error (e, _), .error e2 => e = e2
      | .ok ((a, r), _), .ok ds =>
          a = atts.reverse ++ ds.map (fun d => ⟨d.id, d.filename⟩) ∧
          r = rags.reverse ++ ds.filter (fun d => d.status == DocumentStatus.completed)
      | _, _ => False) := by
  intro ids
  induction ids with
  | nil =>
    intro db atts rags
    simp [MessageService.attach_documents_loop, specLookupDocuments]
  | cons i rest ih =>
    intro db atts rags
    rw [MessageService.attach_documents_loop, specLookupDocuments]
    simp only [MessageService.get_document, Store.findLiveDocument]
    cases hfind : db.session.documents.find? (fun d => d.id == i && d.deletedAt.isNone) with
    | none => rfl
    | some d =>
      dsimp only
      have ih2 := ih (db.addMessageDocument mid d.id)
        (⟨d.id, d.filename⟩ :: atts)
        (if d.status == DocumentStatus.completed then d :: rags else rags)
      rw [show (db.addMessageDocument mid d.id).session.documents = db.session.documents
        from rfl] at ih2
      cases hrec : MessageService.attach_documents_loop mid (db.addMessageDocument mid d.id)
          rest (⟨d.id, d.filename⟩ :: atts)
          (if d.status == DocumentStatus.completed then d :: rags else rags) with
      | error p =>
        cases hspec : specLookupDocuments db.session.documents rest with
        | error e2 =>
          rw [hrec, hspec] at ih2
          rcases p with ⟨e, dbx⟩
          exact ih2
        | ok ds =>
          rw [hrec, hspec] at ih2
          exact absurd ih2 (by rcases p with ⟨e, dbx⟩; simp)
      | ok t =>
        cases hspec : specLookupDocuments db.session.documents rest with
        | error e2 =>
          rw [hrec, hspec] at ih2
          exact absurd ih2 (by rcases t with ⟨⟨a, r⟩, dbx⟩; simp)
        | ok ds =>
          rw [hrec, hspec] at ih2
          rcases t with ⟨⟨a, r⟩, dbx⟩
          obtain ⟨ha, hr⟩ := ih2
          dsimp only
          constructor
          · rw [ha]
            simp [List.append_assoc]
          · rw [hr]
            by_cases hc : (d.status == DocumentStatus.completed) = true
            · simp only [hc, if_true, List.filter_cons, List.reverse_cons]
              simp [List.append_assoc, hc]
            · have hc2 : (d.status == DocumentStatus.completed) = false := by
                cases h : d.status == DocumentStatus.completed
                · rfl
                · exact absurd h hc
              simp only [hc2, Bool.false_eq_true, if_false, List.filter_cons]

theorem chat_rag_loop_eq (st : Store) :
    ∀ edges : List ChatDocument,
      MessageService.chat_documents_rag_loop st edges =
        (edges.filterMap (fun cd => st.findLiveDocument cd.documentId)).filter
          (fun d => d.status == DocumentStatus.completed) := by
  intro edges
  induction edges with
  | nil => rfl
  | cons cd rest ih =>
    rw [MessageService.chat_documents_rag_loop, List.filterMap_cons]
    cases hfind : st.findLiveDocument cd.documentId with
    | none => simpa using ih
    | some d =>
      dsimp only
      rw [List.filter_cons]
      by_cases hc : (d.status == DocumentStatus.completed) = true
      · simp [hc, ih]
      · have hc2 : (d.status == DocumentStatus.completed) = false := by
          cases h : d.status == DocumentStatus.completed
          · rfl
          · exact absurd h hc
        simp [hc2, ih]

/-- C3. The set of documents handed to retrieval follows the first-matching
tier rule of the spec: explicit ids (hard 404 when one is missing or
soft-deleted, the found ones filtered to completed), else the chat's linked
completed documents, else — exactly when the chat has zero linked completed
documents — all of the user's completed non-deleted documents. The code's
resolution block agrees with the spec-side resolver on both the error and
the resolved list. -/
theorem C3_document_resolution_tiers (db : Db) (mid chatId : Nat) (md : MessageCreate) :
    (match MessageService.resolve_documents_for_rag db mid chatId md,
        specResolveDocuments db.session md chatId with
    | .error (e, _), .error e2 => e = e2
    | .ok ((_, docs), _), .ok docs2 => docs = docs2
    | _, _ => False) := by
  simp only [MessageService.resolve_documents_for_rag, specResolveDocuments]
  by_cases ht : listTruthy md.document_ids = true
  · rw [if_pos ht, if_pos ht]
    simp only [MessageService.attach_documents_to_message]
    have key := attach_loop_matches_lookup mid (md.document_ids.getD []) db [] []
    cases hrec : MessageService.attach_documents_loop mid db (md.document_ids.getD []) [] [] with
    | error p =>
      cases hspec : specLookupDocuments db.session.documents (md.document_ids.getD []) with
      | error e2 =>
        rw [hrec, hspec] at key
        rcases p with ⟨e, dbx⟩
        exact key
      | ok ds =>
        rw [hrec, hspec] at key
        exact absurd key (by rcases p with ⟨e, dbx⟩; simp)
    | ok t =>
      cases hspec : specLookupDocuments db.session.documents (md.document_ids.getD []) with
      | error e2 =>
        rw [hrec, hspec] at key
        exact absurd key (by rcases t with ⟨⟨a, r⟩, dbx⟩; simp)
      | ok ds =>
        rw [hrec, hspec] at key
        rcases t with ⟨⟨a, r⟩, dbx⟩
        obtain ⟨ha, hr⟩ := key
        dsimp only
        rw [hr]
        simp
  · have ht2 : listTruthy md.document_ids = false := by
      cases h : listTruthy md.document_ids
      · rfl
      · exact absurd h ht
    rw [ht2]
    simp only [Bool.false_eq_true, if_false]
    have hb : MessageService.get_chat_documents_for_rag db chatId =
        specChatLinkedCompleted db.session chatId := by
      rw [MessageService.get_chat_documents_for_rag, chat_rag_loop_eq, specChatLinkedCompleted]
    rw [hb]
    cases hEmp : (specChatLinkedCompleted db.session chatId).isEmpty with
    | true =>
      simp only [hEmp, if_true, Bool.not_true, Bool.false_eq_true, if_false]
    | false =>
      simp only [hEmp, Bool.false_eq_true, if_false, Bool.not_false, if_true]

/-! ### C1: rejection of chat creation does not undo the committed chat -/

/-- A named document on which the create-with-documents request is rejected:
missing, soft-deleted, or in failed status. -/
def badDocumentRequest (st : Store) (i : Nat) : Prop :=
  st.findLiveDocument i = none ∨
  ∃ d, st.findLiveDocument i = some d ∧ d.status = DocumentStatus.failed

theorem chat_attach_loop_rejects (chatId : Nat) :
    ∀ (ids : List Nat) (db : Db) (infos : List (Nat × String)),
      (∃ i ∈ ids, badDocumentRequest db.session i) →
      ∃ e db1, MessageService.chat_documents_attach_loop chatId db ids infos =
          .error (e, db1) ∧ db1.committed = db.committed ∧ db1.session = db.committed := by
  intro ids
  induction ids with
  | nil =>
    intro db infos h
    obtain ⟨i, hi, _⟩ := h
    cases hi
  | cons i0 rest ih =>
    intro db infos hbad
    rw [MessageService.chat_documents_attach_loop]
    simp only [MessageService.get_document]
    cases hfind : db.session.findLiveDocument i0 with
    | none =>
      dsimp only
      exact ⟨_, _, rfl, rfl, rfl⟩
    | some d =>
      dsimp only
      by_cases hf : (d.status == DocumentStatus.failed) = true
      · rw [if_pos hf]
        exact ⟨_, _, rfl, rfl, rfl⟩
      · have hf2 : (d.status == DocumentStatus.failed) = false := by
          cases h : d.status == DocumentStatus.failed
          · rfl
          · exact absurd h hf
        rw [hf2]
        simp only [Bool.false_eq_true, if_false]
        have hbad2 : ∃ i ∈ rest, badDocumentRequest
            (db.addChatDocument chatId d.id).session i := by
          obtain ⟨i, hi, hbadi⟩ := hbad
          rcases List.mem_cons.mp hi with rfl | hrest
          · exfalso
            rcases hbadi with hnone | ⟨d2, hd2, hfail⟩
            · rw [hfind] at hnone
              cases hnone
            · rw [hfind] at hd2
              have : d = d2 := Option.some.inj hd2
              subst this
              rw [hfail] at hf2
              simp at hf2
          · exact ⟨i, hrest, hbadi⟩
        obtain ⟨e, db1, hrec, hcom, hsess⟩ :=
          ih (db.addChatDocument chatId d.id) ((d.id, d.filename) :: infos) hbad2
        exact ⟨e, db1, hrec, hcom, hsess⟩

/-- C1 (amended). When createMessage is called with chatId null and explicit
document ids, and any named document is missing, soft-deleted, or failed,
the whole operation is rejected with an error and the pending chat-document
attachments are rolled back — but the newly created chat was committed
before document validation, so it remains in the database: a partial chat
is left behind. -/
theorem C1_rejected_chat_creation_keeps_chat (o : RagOracle) (db : Db) (md : MessageCreate)
    (hchat : md.chat_id = none) (hcat : md.category_id = none)
    (hids : listTruthy md.document_ids = true)
    (hclean : db.session = db.committed)
    (hbad : ∃ i ∈ md.document_ids.getD [], badDocumentRequest db.session i) :
    ∃ e db1, MessageService.create_message o db md = .error (e, db1) ∧
      db1.committed.chats.length = db.committed.chats.length + 1 ∧
      db1.committed.chatDocuments = db.committed.chatDocuments ∧
      db1.committed.messages = db.committed.messages := by
  have hbad2 : ∃ i ∈ md.document_ids.getD [], badDocumentRequest
      ((db.addChat md.user_id none (md.content.take 50)).2.commit).session i := by
    obtain ⟨i, hi, hbadi⟩ := hbad
    exact ⟨i, hi, hbadi⟩
  obtain ⟨e, db1, hrec, hcom, hsess⟩ := chat_attach_loop_rejects
    ((db.addChat md.user_id none (md.content.take 50)).1.id)
    (md.document_ids.getD [])
    ((db.addChat md.user_id none (md.content.take 50)).2.commit) [] hbad2
  refine ⟨e, db1, ?_, ?_, ?_, ?_⟩
  · simp only [MessageService.create_message, MessageService.create_new_chat_with_message,
      hchat, hcat]
    rw [if_pos hids, hrec]
  · rw [hcom]
    simp only [Db.commit, Db.addChat]
    rw [List.length_append, hclean]
    rfl
  · rw [hcom]
    simp only [Db.commit, Db.addChat]
    rw [hclean]
  · rw [hcom]
    simp only [Db.commit, Db.addChat]
    rw [hclean]

def errPart {α : Type} : Except (Err × Db) α → Option (Err × Db)
  | .error p => some p
  | .ok _ => none

def mdC1 : MessageCreate :=
  { content := "hello", chat_id := none, document_ids := some [7],
    category_id := none, user_id := "default-user" }

/-- C1 counterexample: with chatId null and a missing explicit document id,
createMessage raises NotFound — but the committed database afterwards holds
the newly created chat (one chat row), so a partial chat is left behind,
contrary to the claim that the new chat is rolled back. -/
theorem C1_counterexample :
    (errPart (MessageService.create_message okOracle emptyDb mdC1)).map
      (fun p => (p.1, p.2.committed.chats.length)) =
      some (Err.http 404 ("Document 7 not found."), 1) := by
  decide

/-- C1 witness: the amended statement instantiated on the concrete rejected
request of the counterexample. -/
theorem C1_witness :
    (mdC1.chat_id = none ∧ mdC1.category_id = none ∧
      listTruthy mdC1.document_ids = true ∧ emptyDb.session = emptyDb.committed ∧
      (7 ∈ mdC1.document_ids.getD [] ∧ badDocumentRequest emptyDb.session 7)) ∧
    (∃ e db1, MessageService.create_message okOracle emptyDb mdC1 = .error (e, db1) ∧
      db1.committed.chats.length = emptyDb.committed.chats.length + 1 ∧
      db1.committed.chatDocuments = emptyDb.committed.chatDocuments ∧
      db1.committed.messages = emptyDb.committed.messages) :=
  ⟨⟨rfl, rfl, rfl, rfl, by decide, Or.inl (by decide)⟩,
    C1_rejected_chat_creation_keeps_chat okOracle emptyDb mdC1 rfl rfl rfl rfl
      ⟨7, by decide, Or.inl (by decide)⟩⟩

/-! ### C10: a 404 on an existing chat leaves the committed user turn behind -/

theorem attach_loop_error_of_missing (mid : Nat) :
    ∀ (ids : List Nat) (db : Db) (atts : List DocumentAttachment) (rags : List Document),
      (∃ i ∈ ids, db.session.findLiveDocument i = none) →
      ∃ detail db1, MessageService.attach_documents_loop mid db ids atts rags =
          .error (.http 404 detail, db1) ∧ db1.committed = db.committed := by
  intro ids
  induction ids with
  | nil =>
    intro db atts rags h
    obtain ⟨i, hi, _⟩ := h
    cases hi
  | cons i0 rest ih =>
    intro db atts rags hbad
    rw [MessageService.attach_documents_loop]
    simp only [MessageService.get_document]
    cases hfind : db.session.findLiveDocument i0 with
    | none =>
      dsimp only
      exact ⟨_, _, rfl, rfl⟩
    | some d =>
      dsimp only
      have hbad2 : ∃ i ∈ rest,
          (db.addMessageDocument mid d.id).session.findLiveDocument i = none := by
        obtain ⟨i, hi, hnone⟩ := hbad
        rcases List.mem_cons.mp hi with rfl | hrest
        · rw [hfind] at hnone
          cases hnone
        · exact ⟨i, hrest, hnone⟩
      obtain ⟨detail, db1, hrec, hcom⟩ := ih (db.addMessageDocument mid d.id)
        (⟨d.id, d.filename⟩ :: atts)
        (if d.status == DocumentStatus.completed then d :: rags else rags) hbad2
      exact ⟨detail, db1, hrec, hcom⟩

/-- C10. On an existing chat, when createMessage names an explicit document
id that is missing or soft-deleted, the request fails with NotFound — but
the user message, persisted and committed before document lookup, remains
in the committed store (a fresh user turn for this request), and no new
assistant turn exists: the operation is not atomic. -/
theorem C10_404_leaves_user_turn (o : RagOracle) (db : Db) (md : MessageCreate)
    (cid : Nat) (chat : Chat)
    (hchat : md.chat_id = some cid)
    (hclean : db.session = db.committed)
    (hfound : db.session.chats.find? (fun c => c.id == cid && c.deletedAt.isNone) = some chat)
    (howner : (chat.userId == some md.user_id) = true)
    (hids : listTruthy md.document_ids = true)
    (hbad : ∃ i ∈ md.document_ids.getD [], db.session.findLiveDocument i = none)
    (hfresh : ∀ m ∈ db.committed.messages, m.createdAt < db.tick) :
    ∃ detail db1,
      MessageService.create_message o db md = .error (.http 404 detail, db1) ∧
      (∃ um ∈ db1.committed.messages, um.chatId = chat.id ∧ um.role = .user ∧
        um.content = md.content ∧ um ∉ db.committed.messages) ∧
      (∀ m2 ∈ db1.committed.messages, m2.role = .assistant →
        m2 ∈ db.committed.messages) := by
  have hbad2 : ∃ i ∈ md.document_ids.getD [],
      ((db.addMessage chat.id .user md.content none).2.commit).session.findLiveDocument i =
        none := by
    obtain ⟨i, hi, hnone⟩ := hbad
    exact ⟨i, hi, hnone⟩
  obtain ⟨detail, db1, hrec, hcom⟩ := attach_loop_error_of_missing
    ((db.addMessage chat.id .user md.content none).1.id)
    (md.document_ids.getD [])
    ((db.addMessage chat.id .user md.content none).2.commit) [] [] hbad2
  refine ⟨detail, db1, ?_, ?_, ?_⟩
  · simp only [MessageService.create_message, ChatService.validate_chat_ownership, hchat]
    rw [hfound]
    dsimp only
    rw [if_pos howner]
    dsimp only
    simp only [MessageService.resolve_documents_for_rag,
      MessageService.attach_documents_to_message]
    rw [if_pos hids, hrec]
  · refine ⟨(db.addMessage chat.id .user md.content none).1, ?_, rfl, rfl, rfl, ?_⟩
    · rw [hcom]
      simp only [Db.commit, Db.addMessage]
      exact List.mem_append_right _ (List.mem_singleton_self _)
    · intro hin
      have := hfresh _ hin
      simp only [Db.addMessage] at this
      omega
  · intro m2 hm2 hrole
    rw [hcom] at hm2
    simp only [Db.commit, Db.addMessage] at hm2
    rcases List.mem_append.mp hm2 with hold | hnew
    · rw [hclean] at hold
      exact hold
    · exfalso
      simp only [List.mem_singleton] at hnew
      subst hnew
      simp only [Db.addMessage] at hrole
      cases hrole

def mdC10 : MessageCreate :=
  { content := "hi", chat_id := some 0, document_ids := some [5],
    category_id := none, user_id := "default-user" }

/-- C10 witness: on a concrete one-chat database, naming a missing document
id produces the 404 while the committed store holds the fresh user turn and
no assistant turn. -/
theorem C10_witness :
    (mdC10.chat_id = some 0 ∧ chatDb1.session = chatDb1.committed ∧
      chatDb1.session.chats.find? (fun c => c.id == 0 && c.deletedAt.isNone) = some chatRow0 ∧
      (chatRow0.userId == some mdC10.user_id) = true ∧
      listTruthy mdC10.document_ids = true ∧
      (5 ∈ mdC10.document_ids.getD [] ∧ chatDb1.session.findLiveDocument 5 = none) ∧
      (∀ m ∈ chatDb1.committed.messages, m.createdAt < chatDb1.tick)) ∧
    (∃ detail db1, MessageService.create_message okOracle chatDb1 mdC10 =
        .error (.http 404 detail, db1) ∧
      (∃ um ∈ db1.committed.messages, um.chatId = chatRow0.id ∧ um.role = .user ∧
        um.content = mdC10.content ∧ um ∉ chatDb1.committed.messages) ∧
      (∀ m2 ∈ db1.committed.messages, m2.role = .assistant →
        m2 ∈ chatDb1.committed.messages)) :=
  ⟨⟨rfl, rfl, by decide, by decide, rfl, ⟨by decide, by decide⟩, by decide⟩,
    C10_404_leaves_user_turn okOracle chatDb1 mdC10 0 chatRow0 rfl rfl (by decide)
      (by decide) rfl ⟨5, by decide, by decide⟩ (by decide)⟩
